import Mathlib

/-!
# GGoL: a cellular automaton with finite, random lifespans

A shallow embedding of the automaton engine of `src/Main.cpp`: the random
lifespan source (`RNG`), the cell state machine (`Cell`), the grid with its
adjacency construction and generation update (`Grid`) and the three seeding
routines (`Type1Cell_initialize`, `Type2Cell_initialize`,
`Type3Cell_initialize`).

Modelling conventions.

* `size_t` values are natural numbers; where the source converts between
  `int`, `long long` and `size_t` the conversion is written out
  (`toSizeT`, `toLongLong`, `sizeSub`, `sizeAdd`, `sizeMul`), arithmetic on
  `size_t` being modulo `2 ^ 64` (a 64-bit `size_t`).
* A `Cell*` stored in `_adjacentCells` always points into `Grid::_cells`; it
  is modelled by the index of the cell it points to.
* The global `RNG::generator`/`RNG::distribution` pair is an explicit value
  threaded through every function that draws from it.
* The function-local statics of `Grid::GetCellFromCoord` are process-wide
  state; they are an explicit value (`CellSizeStatics`) passed to the function
  and returned by it.
* Drawing state (`_shape`, `_pos`, `_text`, colours) has no influence on the
  simulation and is left out.
-/

/-! ## Configuration -/

namespace Config

/-- Source constant `Config::ScreenSize`. -/
def ScreenSize : Nat × Nat := (800, 800)

/-- Source constant `Config::MaxCellLifeLength`. -/
def MaxCellLifeLength : Nat := 10

/-- Source constant `Config::MinParentsToBorn`. -/
def MinParentsToBorn : Nat := 2

/-- Source constant `Config::MinCycleToLiveToReproduce`. -/
def MinCycleToLiveToReproduce : Nat := 2

end Config

/-! ## Machine integers -/

/-- Conversion of a signed integer to `size_t` (reduction modulo `2 ^ 64`). -/
def toSizeT (z : Int) : Nat := (z % 18446744073709551616).toNat

/-- Conversion of a `size_t` value to `long long` (two's complement). -/
def toLongLong (u : Nat) : Int :=
  if u < 9223372036854775808 then (u : Int) else (u : Int) - 18446744073709551616

/-- Subtraction of two `size_t` values, `a - b` modulo `2 ^ 64`. -/
def sizeSub (a b : Nat) : Nat := (a + (18446744073709551616 - b % 18446744073709551616)) % 18446744073709551616

/-- Addition of two `size_t` values, `a + b` modulo `2 ^ 64`. -/
def sizeAdd (a b : Nat) : Nat := (a + b) % 18446744073709551616

/-- Multiplication of two `size_t` values, `a * b` modulo `2 ^ 64`. -/
def sizeMul (a b : Nat) : Nat := (a * b) % 18446744073709551616

/-! ## The random lifespan source -/

/-- The state of `namespace RNG`. `distribution n` is the value that the
`n`-th evaluation of `distribution(generator)` yields and `generator` counts
the evaluations made so far. -/
structure RNG where
  distribution : Nat → Int
  generator : Nat

/-- Source function `RNG::Get`: returns the next value and advances the generator. -/
def RNG.Get (r : RNG) : Int × RNG :=
  (r.distribution r.generator, { r with generator := r.generator + 1 })

/-- The contract of `std::uniform_int_distribution<int>(2, Config::MaxCellLifeLength)`:
every value drawn lies in the inclusive range `[2, MaxCellLifeLength]`. -/
def RNG.InRange (r : RNG) : Prop :=
  ∀ n, 2 ≤ r.distribution n ∧ r.distribution n ≤ (Config.MaxCellLifeLength : Int)

/-- The generator that returns `v` at every call. -/
def RNG.const (v : Int) : RNG := { distribution := fun _ => v, generator := 0 }

/-! ## Cells -/

/-- Source enumeration `Cell::NextStatus`. -/
inductive NextStatus where
  | Same
  | WillDie
  | WillBorn
  deriving DecidableEq, Repr

/-- Source structure `Cell`, restricted to the simulation state. -/
structure Cell where
  _adjacentCells : List Nat := []
  _nextStatus : NextStatus := NextStatus.Same
  _remainingCyclesToLive : Nat := 0
  deriving DecidableEq, Repr

/-- Source function `Cell::Born`: the remaining life becomes the next draw,
converted from `int` to `size_t`. -/
def Cell.Born (c : Cell) (r : RNG) : Cell × RNG :=
  ({ c with _remainingCyclesToLive := toSizeT r.Get.1 }, r.Get.2)

/-- Source function `Cell::Die`. -/
def Cell.Die (c : Cell) : Cell :=
  { c with _remainingCyclesToLive := 0 }

/-- Dereference of a `Cell*` held in an adjacency list. -/
def deref (cells : List Cell) (p : Nat) : Cell := cells.getD p {}

/-- The field `_remainingCyclesToLive` of the cell that `p` points to. -/
def lifeOf (cells : List Cell) (p : Nat) : Nat := (deref cells p)._remainingCyclesToLive

/-- Source function `Cell::Behave`, for the cell `c` of the vector `cells`. -/
def Cell.Behave (cells : List Cell) (c : Cell) : Cell :=
  if c._remainingCyclesToLive = 0 then
    let aliveNearbyCells :=
      c._adjacentCells.countP
        (fun p => decide ((deref cells p)._remainingCyclesToLive > Config.MinCycleToLiveToReproduce))
    if aliveNearbyCells > Config.MinParentsToBorn then
      { c with _nextStatus := NextStatus.WillBorn }
    else c
  else
    if c._remainingCyclesToLive - 1 = 0 then
      { c with _remainingCyclesToLive := c._remainingCyclesToLive - 1, _nextStatus := NextStatus.WillDie }
    else
      { c with _remainingCyclesToLive := c._remainingCyclesToLive - 1 }

/-- Source function `Cell::ApplyStatus`. -/
def Cell.ApplyStatus (c : Cell) (r : RNG) : Cell × RNG :=
  match c._nextStatus with
  | NextStatus.WillDie => ({ c.Die with _nextStatus := NextStatus.Same }, r)
  | NextStatus.WillBorn => ({ (c.Born r).1 with _nextStatus := NextStatus.Same }, (c.Born r).2)
  | NextStatus.Same => ({ c with _nextStatus := NextStatus.Same }, r)

/-! ## The grid -/

/-- Source structure `Grid`. -/
structure Grid where
  _cells : List Cell
  _size : Nat × Nat
  deriving DecidableEq, Repr

/-- First loop of `Grid::Behave`, `for (auto & elem : _cells) elem.Behave();`.
`done` holds the cells already visited (in their new state), `todo` the cells
still to visit; the vector that the visited cell reads its neighbours from is
`done ++ todo`. -/
def Grid.behaveLoop (done : List Cell) : List Cell → List Cell
  | [] => done
  | c :: todo => Grid.behaveLoop (done ++ [Cell.Behave (done ++ c :: todo) c]) todo

/-- Second loop of `Grid::Behave`, `std::for_each` of `Cell::ApplyStatus`. -/
def Grid.applyLoop : List Cell → RNG → List Cell × RNG
  | [], r => ([], r)
  | c :: todo, r =>
    ((c.ApplyStatus r).1 :: (Grid.applyLoop todo (c.ApplyStatus r).2).1,
      (Grid.applyLoop todo (c.ApplyStatus r).2).2)

/-- Source function `Grid::Behave`: one generation. -/
def Grid.Behave (g : Grid) (r : RNG) : Grid × RNG :=
  ({ g with _cells := (Grid.applyLoop (Grid.behaveLoop [] g._cells) r).1 },
    (Grid.applyLoop (Grid.behaveLoop [] g._cells) r).2)

/-- Bounds-checked access `std::vector::at`; `none` stands for the
`std::out_of_range` exception. -/
def vectorAt (cells : List Cell) (i : Nat) : Option Cell := cells[i]?

/-- The statement
`_cells.at(cellId)._adjacentCells.push_back(&(_cells.at(target)));` of the
constructor. Both arguments of `at` are converted to `size_t`. -/
def Grid.link (cells : List Cell) (cellId target : Int) : Option (List Cell) :=
  match vectorAt cells (toSizeT target), vectorAt cells (toSizeT cellId) with
  | some _, some c =>
    some (cells.set (toSizeT cellId)
      { c with _adjacentCells := c._adjacentCells ++ [toSizeT target] })
  | _, _ => none

/-- Body of the second double loop of the constructor, for one `(y_it, x_it)`.
The state is the vector of cells and the `int` counter `cellId`. In
`cellId - size` and the like `cellId` is converted to `size_t`, the arithmetic
is done modulo `2 ^ 64` and the result is converted to `long long`;
`cellId + 1`, `cellId - 1` and `cellId++` are `int` arithmetic, which the
program leaves without overflow exactly when `size * size < 2 ^ 31`. -/
def Grid.linkCell (size y_it x_it : Nat) (st : List Cell × Int) : Option (List Cell × Int) :=
  let cellId : Int := st.2
  let N : Int := toLongLong (sizeSub (toSizeT cellId) size)
  let S : Int := toLongLong (sizeAdd (toSizeT cellId) size)
  let E : Int := cellId + 1
  let W : Int := cellId - 1
  let NE : Int := toLongLong (sizeAdd (sizeSub (toSizeT cellId) size) 1)
  let NW : Int := toLongLong (sizeSub (sizeSub (toSizeT cellId) size) 1)
  let SE : Int := toLongLong (sizeAdd (sizeAdd (toSizeT cellId) size) 1)
  let SW : Int := toLongLong (sizeSub (sizeAdd (toSizeT cellId) size) 1)
  (if y_it ≠ 0 then
      (Grid.link st.1 cellId N).bind fun c1 =>
      (if x_it ≠ sizeSub size 1 then Grid.link c1 cellId NE else some c1).bind fun c2 =>
      (if x_it ≠ 0 then Grid.link c2 cellId NW else some c2)
    else some st.1).bind fun c3 =>
  (if y_it ≠ sizeSub size 1 then
      (Grid.link c3 cellId S).bind fun c4 =>
      (if x_it ≠ sizeSub size 1 then Grid.link c4 cellId SE else some c4).bind fun c5 =>
      (if x_it ≠ 0 then Grid.link c5 cellId SW else some c5)
    else some c3).bind fun c6 =>
  (if x_it ≠ sizeSub size 1 then Grid.link c6 cellId E else some c6).bind fun c7 =>
  (if x_it ≠ 0 then Grid.link c7 cellId W else some c7).bind fun c8 =>
  some (c8, cellId + 1)

/-- First double loop of the constructor: one `emplace_back` of a fresh cell
per grid position. -/
def Grid.allocate (size : Nat) : List Cell :=
  (List.range size).foldl
    (fun cells _ => (List.range size).foldl (fun cells _ => cells ++ [({} : Cell)]) cells) []

/-- Second double loop of the constructor. -/
def Grid.linkAll (size : Nat) (cells : List Cell) : Option (List Cell × Int) :=
  (List.range size).foldlM
    (fun st y_it => (List.range size).foldlM (fun st x_it => Grid.linkCell size y_it x_it st) st)
    (cells, (0 : Int))

/-- Source constructor `Grid::Grid(const size_t size)`; `none` when an `at`
throws. -/
def Grid.ctor (size : Nat) : Option Grid :=
  (Grid.linkAll size (Grid.allocate size)).map
    fun st => { _cells := st.1, _size := (size, size) }

/-! ## Seeding -/

/-- The call `cell->Born()` through a reference or pointer to the cell stored
at index `p` of the grid's vector. -/
def Grid.bornAt (st : Grid × RNG) (p : Nat) : Grid × RNG :=
  match st.1._cells[p]? with
  | some c => ({ st.1 with _cells := st.1._cells.set p (c.Born st.2).1 }, (c.Born st.2).2)
  | none => st

/-- Source function `Type1Cell_initialize`, for the cell stored at index
`cell`: `cell.Born()`, then `Born()` on every entry of its adjacency list. -/
def Type1Cell_initialize (st : Grid × RNG) (cell : Nat) : Grid × RNG :=
  (deref (Grid.bornAt st cell).1._cells cell)._adjacentCells.foldl
    (fun s p => Grid.bornAt s p) (Grid.bornAt st cell)

/-- Source function `Type2Cell_initialize`, for the cell stored at index
`cell`: `cell.Born()`, then `Born()` and `Type1Cell_initialize` on every entry
of its adjacency list. -/
def Type2Cell_initialize (st : Grid × RNG) (cell : Nat) : Grid × RNG :=
  (deref (Grid.bornAt st cell).1._cells cell)._adjacentCells.foldl
    (fun s p => Type1Cell_initialize (Grid.bornAt s p) p) (Grid.bornAt st cell)

/-- Source function `Type3Cell_initialize`, for the cell stored at index
`cell`: `cell.Born()`, then `Born()` and `Type2Cell_initialize` on every entry
of its adjacency list. -/
def Type3Cell_initialize (st : Grid × RNG) (cell : Nat) : Grid × RNG :=
  (deref (Grid.bornAt st cell).1._cells cell)._adjacentCells.foldl
    (fun s p => Type2Cell_initialize (Grid.bornAt s p) p) (Grid.bornAt st cell)

/-! ## Auxiliary definitions used in the statements -/

/-- Every cell of the vector has no staged transition. -/
def AllSame (cells : List Cell) : Prop :=
  ∀ c ∈ cells, c._nextStatus = NextStatus.Same

instance (cells : List Cell) : Decidable (AllSame cells) := by
  unfold AllSame; infer_instance

/-- The grid `g` is a state of the `size × size` grid: it has the dimensions
and the adjacency lists that the constructor builds (the remaining lives and
the staged transitions are free). -/
def Grid.IsStateOf (size : Nat) (g : Grid) : Prop :=
  (Grid.ctor size).map (fun g0 => (g0._size, g0._cells.map fun c => c._adjacentCells))
    = some (g._size, g._cells.map fun c => c._adjacentCells)

instance (size : Nat) (g : Grid) : Decidable (g.IsStateOf size) := by
  unfold Grid.IsStateOf; infer_instance

/-- The grid after `k` consecutive calls of `Grid::Behave`. -/
def Grid.generations : Nat → Grid × RNG → Grid × RNG
  | 0, st => st
  | k + 1, st => Grid.generations k (st.1.Behave st.2)

/-- The states that the host can bring about: the constructor, then any
sequence of `Grid::Behave` and seeding calls. -/
inductive Reachable (size : Nat) : Grid × RNG → Prop where
  | fresh (g : Grid) (r : RNG) : Grid.ctor size = some g → Reachable size (g, r)
  | behave (st : Grid × RNG) : Reachable size st → Reachable size (st.1.Behave st.2)
  | type1 (st : Grid × RNG) (cell : Nat) :
      Reachable size st → Reachable size ( Type1Cell_initialize st cell)
  | type2 (st : Grid × RNG) (cell : Nat) :
      Reachable size st → Reachable size ( Type2Cell_initialize st cell)
  | type3 (st : Grid × RNG) (cell : Nat) :
      Reachable size st → Reachable size ( Type3Cell_initialize st cell)

/-- The part of a cell that the adjacency construction leaves alone. -/
def Cell.state (c : Cell) : NextStatus × Nat := (c._nextStatus, c._remainingCyclesToLive)

/-! ## Further definitions: fixtures, closed forms and host-facing queries -/

/-- The vector read by the cell stored at index `i` while the first loop of
`Grid::Behave` visits it. -/
def Grid.viewAt (cells : List Cell) (i : Nat) : List Cell :=
  (Grid.behaveLoop [] cells).take i ++ cells.drop i

/-- The grid that the constructor builds for `size`, with the remaining life
of the cell stored at index `k` set to the `k`-th entry of `lives`. -/
def Grid.ofLives (size : Nat) (lives : List Nat) : Grid :=
  match Grid.ctor size with
  | some g =>
    { g with _cells := List.zipWith (fun c l => { c with _remainingCyclesToLive := l }) g._cells lives }
  | none => { _cells := [], _size := (size, size) }

/-- The adjacency list that the constructor gives the cell at column `x_it`
and row `y_it`, in the order of its `push_back`s (N, NE, NW, S, SE, SW, E, W,
each under its guard). It is the closed form of what `Grid.linkCell` appends,
see `Grid.linkCell_eq`. -/
def Grid.adjacencyOf (size x_it y_it : Nat) : List Nat :=
  (if y_it ≠ 0 then
      [x_it + y_it * size - size]
        ++ (if x_it ≠ size - 1 then [x_it + y_it * size - size + 1] else [])
        ++ (if x_it ≠ 0 then [x_it + y_it * size - size - 1] else [])
    else [])
    ++ (if y_it ≠ size - 1 then
        [x_it + y_it * size + size]
          ++ (if x_it ≠ size - 1 then [x_it + y_it * size + size + 1] else [])
          ++ (if x_it ≠ 0 then [x_it + y_it * size + size - 1] else [])
      else [])
    ++ (if x_it ≠ size - 1 then [x_it + y_it * size + 1] else [])
    ++ (if x_it ≠ 0 then [x_it + y_it * size - 1] else [])

/-- The vector of cells while the second double loop is about to visit the
cell of index `k`: the cells before `k` are linked, the others are fresh. -/
def Grid.linkedUpTo (size k : Nat) : List Cell :=
  (List.range (size * size)).map fun j =>
    if j < k then { _adjacentCells := Grid.adjacencyOf size (j % size) (j / size) } else {}

/-- Absolute difference `|a - b|` of two natural numbers. -/
def absDiff (a b : Nat) : Nat := if a ≤ b then b - a else a - b

/-- Chebyshev distance between the cells at `(x, y)` and `(x2, y2)`:
`max(|x - x2|, |y - y2|)`. -/
def Grid.distance (x y x2 y2 : Nat) : Nat := max (absDiff x x2) (absDiff y y2)

/-- The count `alivedCells` that `main` takes at the top of its loop:
`std::count_if` of the cells whose `_remainingCyclesToLive` is not 0. -/
def alivedCells (g : Grid) : Nat :=
  g._cells.countP (fun cell => decide (cell._remainingCyclesToLive ≠ 0))

/-- What a call can raise instead of returning: the `std::out_of_range` of
`std::vector::at`, or an integer division by zero. -/
inductive Raised where
  | out_of_range
  | division_by_zero
  deriving DecidableEq, Repr

/-- The function-local `static const size_t cellSizeX` and `cellSizeY` of
`Grid::GetCellFromCoord`: `none` until the first call that reaches the
declaration initialises them, then fixed for the rest of the process, whatever
grid the function is called on afterwards. -/
structure CellSizeStatics where
  cellSizeX : Option Nat := none
  cellSizeY : Option Nat := none
  deriving DecidableEq, Repr

/-- Passing the declaration `static const size_t v = screen / size;`: an
initialised static keeps its value, an uninitialised one is computed now;
`none` stands for the division by zero of that computation. -/
def staticInit (v : Option Nat) (screen size : Nat) : Option Nat :=
  match v with
  | some value => some value
  | none => if size = 0 then none else some (screen / size)

/-- Source function `Grid::GetCellFromCoord`, with the state of its two
function-local statics passed in and returned. The statics are initialised in
order from `Config::ScreenSize` and the `_size` of the grid of the first call,
then the cell is fetched with the bounds-checked `at`. All operands are
`size_t`. -/
def Grid.GetCellFromCoord (g : Grid) (statics : CellSizeStatics) (coord : Nat × Nat) :
    Except Raised Cell × CellSizeStatics :=
  match staticInit statics.cellSizeX Config.ScreenSize.1 g._size.1 with
  | none => (Except.error Raised.division_by_zero, statics)
  | some cellSizeX =>
    match staticInit statics.cellSizeY Config.ScreenSize.2 g._size.2 with
    | none =>
      (Except.error Raised.division_by_zero, { statics with cellSizeX := some cellSizeX })
    | some cellSizeY =>
      (if cellSizeX = 0 ∨ cellSizeY = 0 then Except.error Raised.division_by_zero
        else
          match vectorAt g._cells
              (sizeAdd (coord.1 / cellSizeX) (sizeMul (coord.2 / cellSizeY) g._size.1)) with
          | some cell => Except.ok cell
          | none => Except.error Raised.out_of_range,
        { cellSizeX := some cellSizeX, cellSizeY := some cellSizeY })

/-- The statics are not yet initialised, or hold the cell size `d`. -/
def CellSizeStatics.Fits (statics : CellSizeStatics) (d : Nat) : Prop :=
  (statics.cellSizeX = none ∨ statics.cellSizeX = some d)
    ∧ (statics.cellSizeY = none ∨ statics.cellSizeY = some d)

/-- The grid `Grid grid(160);` of `main`, in the closed form of what the
constructor returns (`Grid.ctor_eq`). -/
def main_grid : Grid := { _cells := Grid.linkedUpTo 160 (160 * 160), _size := (160, 160) }

/-- A second grid, `Grid(80)`, in the closed form of what the constructor
returns (`Grid.ctor_eq`). -/
def second_grid : Grid := { _cells := Grid.linkedUpTo 80 (80 * 80), _size := (80, 80) }

/-- The pointers through which the seeding routines call `Born`, in call
order, when `adj` gives the adjacency list of every cell: depth index 0 is
`Type1Cell_initialize`, 1 is `Type2Cell_initialize`, 2 is
`Type3Cell_initialize` (see `Type1Cell_eq_foldl`, `Type2Cell_eq_foldl`,
`Type3Cell_eq_foldl`). -/
def Grid.pointers (adj : Nat → List Nat) : Nat → Nat → List Nat
  | 0, cell => cell :: adj cell
  | d + 1, cell => cell :: (adj cell).flatMap fun p => p :: Grid.pointers adj d p

/-- The adjacency list of the cell stored at index `q` of a `size × size`
grid, and the empty list for an index that is not a cell. -/
def Grid.adjacencyAt (size q : Nat) : List Nat :=
  if q < size * size then Grid.adjacencyOf size (q % size) (q / size) else []

/-- The grid state and generator `st` have the adjacency lists given by `adj`. -/
def Grid.HasAdjacency (adj : Nat → List Nat) (st : Grid × RNG) : Prop :=
  ∀ q, (deref st.1._cells q)._adjacentCells = adj q

/-! ## The cell state machine -/

theorem Cell.Behave_life (cells : List Cell) (c : Cell) :
    (Cell.Behave cells c)._remainingCyclesToLive = c._remainingCyclesToLive - 1 := by
  unfold Cell.Behave
  split
  · dsimp only
    split <;> simp_all
  · split <;> rfl

theorem Cell.Behave_adjacent (cells : List Cell) (c : Cell) :
    (Cell.Behave cells c)._adjacentCells = c._adjacentCells := by
  unfold Cell.Behave
  split
  · dsimp only
    split <;> rfl
  · split <;> rfl

/-- A dead cell is staged for birth exactly when more than `MinParentsToBorn`
of the cells it points to have, in the vector it reads, a remaining life above
`MinCycleToLiveToReproduce`; otherwise its staged transition is untouched. -/
theorem Cell.Behave_status_dead (cells : List Cell) (c : Cell)
    (hdead : c._remainingCyclesToLive = 0) :
    (Cell.Behave cells c)._nextStatus =
      if 2 < c._adjacentCells.countP (fun p => decide (2 < lifeOf cells p))
      then NextStatus.WillBorn else c._nextStatus := by
  unfold Cell.Behave
  simp only [hdead, if_true, Config.MinParentsToBorn, Config.MinCycleToLiveToReproduce,
    gt_iff_lt, lifeOf]
  split <;> rfl

/-- A living cell is staged for death exactly when its life drops to zero;
otherwise its staged transition is untouched. -/
theorem Cell.Behave_status_alive (cells : List Cell) (c : Cell)
    (halive : c._remainingCyclesToLive ≠ 0) :
    (Cell.Behave cells c)._nextStatus =
      if c._remainingCyclesToLive = 1 then NextStatus.WillDie else c._nextStatus := by
  unfold Cell.Behave
  simp only [halive, if_false]
  by_cases h1 : c._remainingCyclesToLive = 1
  · simp [h1]
  · have : c._remainingCyclesToLive - 1 ≠ 0 := by omega
    simp [h1, this]

theorem Cell.ApplyStatus_status (c : Cell) (r : RNG) :
    (c.ApplyStatus r).1._nextStatus = NextStatus.Same := by
  unfold Cell.ApplyStatus
  split <;> rfl

theorem Cell.ApplyStatus_adjacent (c : Cell) (r : RNG) :
    (c.ApplyStatus r).1._adjacentCells = c._adjacentCells := by
  unfold Cell.ApplyStatus
  split <;> rfl

theorem Cell.ApplyStatus_distribution (c : Cell) (r : RNG) :
    (c.ApplyStatus r).2.distribution = r.distribution := by
  unfold Cell.ApplyStatus
  split <;> rfl

theorem Cell.ApplyStatus_same (c : Cell) (r : RNG) (h : c._nextStatus = NextStatus.Same) :
    c.ApplyStatus r = (c, r) := by
  unfold Cell.ApplyStatus
  cases c with
  | mk a s l => simp only at h; subst h; rfl

theorem Cell.ApplyStatus_die (c : Cell) (r : RNG) (h : c._nextStatus = NextStatus.WillDie) :
    (c.ApplyStatus r).1._remainingCyclesToLive = 0 ∧ (c.ApplyStatus r).2 = r := by
  unfold Cell.ApplyStatus
  simp [h, Cell.Die]

theorem Cell.ApplyStatus_born (c : Cell) (r : RNG) (h : c._nextStatus = NextStatus.WillBorn) :
    (c.ApplyStatus r).1._remainingCyclesToLive = toSizeT (r.distribution r.generator) := by
  unfold Cell.ApplyStatus
  simp [h, Cell.Born, RNG.Get]

theorem toSizeT_of_inRange (v : Int) (h : 2 ≤ v ∧ v ≤ (Config.MaxCellLifeLength : Int)) :
    2 ≤ toSizeT v ∧ toSizeT v ≤ 10 := by
  unfold toSizeT
  simp only [Config.MaxCellLifeLength] at h
  omega

/-! ## The two loops of `Grid::Behave` -/

theorem Grid.behaveLoop_length (done todo : List Cell) :
    (Grid.behaveLoop done todo).length = done.length + todo.length := by
  induction todo generalizing done with
  | nil => simp [Grid.behaveLoop]
  | cons c todo ih =>
    simp only [Grid.behaveLoop, ih, List.length_append, List.length_cons, List.length_nil]
    omega

theorem Grid.behaveLoop_take (done todo : List Cell) :
    (Grid.behaveLoop done todo).take done.length = done := by
  induction todo generalizing done with
  | nil => simp [Grid.behaveLoop]
  | cons c todo ih =>
    have h := ih (done ++ [Cell.Behave (done ++ c :: todo) c])
    have h2 := congrArg (List.take done.length) h
    rw [List.take_take] at h2
    simp only [List.length_append, List.length_cons, List.length_nil] at h2
    rw [show min done.length (done.length + (0 + 1)) = done.length by omega] at h2
    simpa [Grid.behaveLoop] using h2

/-- The cell visited at position `done.length + i` is replaced by its
`Cell::Behave` image, computed in the vector made of the new states of the
cells before it and the old states of the cells from it on. -/
theorem Grid.behaveLoop_getElem? (done todo : List Cell) (i : Nat) (c : Cell)
    (h : todo[i]? = some c) :
    (Grid.behaveLoop done todo)[done.length + i]? =
      some (Cell.Behave ((Grid.behaveLoop done todo).take (done.length + i) ++ todo.drop i) c) := by
  induction todo generalizing done i with
  | nil => simp at h
  | cons c0 todo ih =>
    cases i with
    | zero =>
      simp only [List.getElem?_cons_zero, Option.some.injEq] at h
      subst h
      have ht := Grid.behaveLoop_take (done ++ [Cell.Behave (done ++ c0 :: todo) c0]) todo
      have ht0 := Grid.behaveLoop_take done (c0 :: todo)
      simp only [Grid.behaveLoop] at ht0 ⊢
      simp only [Nat.add_zero, List.drop_zero, ht0]
      have h3 := congrArg (fun l => l[done.length]?) ht
      simp only [List.length_append, List.length_cons, List.length_nil] at h3
      rw [List.getElem?_take_of_lt (by omega)] at h3
      rw [h3]
      simp
    | succ i =>
      simp only [List.getElem?_cons_succ] at h
      have h1 := ih (done ++ [Cell.Behave (done ++ c0 :: todo) c0]) i h
      simp only [List.length_append, List.length_cons, List.length_nil] at h1
      simp only [Grid.behaveLoop, List.drop_succ_cons]
      rw [show done.length + (i + 1) = done.length + (0 + 1) + i by omega]
      exact h1

theorem lifeOf_eq (cells : List Cell) (p : Nat) :
    lifeOf cells p = (cells[p]?.map fun c => c._remainingCyclesToLive).getD 0 := by
  unfold lifeOf deref
  rw [List.getD_eq_getElem?_getD]
  cases cells[p]? <;> rfl

theorem lifeOf_of_getElem? (cells : List Cell) (p : Nat) (c : Cell) (h : cells[p]? = some c) :
    lifeOf cells p = c._remainingCyclesToLive := by
  rw [lifeOf_eq, h]; rfl

/-- After the first loop every cell has lost one cycle (a dead cell stays at 0). -/
theorem Grid.behaveLoop_lifeOf (cells : List Cell) (p : Nat) :
    lifeOf (Grid.behaveLoop [] cells) p = lifeOf cells p - 1 := by
  rw [lifeOf_eq, lifeOf_eq]
  cases h : cells[p]? with
  | none =>
    have hl : (Grid.behaveLoop [] cells).length ≤ p := by
      rw [Grid.behaveLoop_length]
      simpa using h
    rw [List.getElem?_eq_none hl]
    rfl
  | some c =>
    have := Grid.behaveLoop_getElem? [] cells p c h
    simp only [List.length_nil, Nat.zero_add] at this
    rw [this]
    simp [Cell.Behave_life]

/-- The vector that the cell at index `i` reads during the first loop: the
cells stored before `i` have already lost one cycle, the others have not. -/
theorem Grid.behaveLoop_view (cells : List Cell) (i p : Nat) (hi : i ≤ cells.length) :
    lifeOf ((Grid.behaveLoop [] cells).take i ++ cells.drop i) p =
      if p < i then lifeOf cells p - 1 else lifeOf cells p := by
  have hlen : ((Grid.behaveLoop [] cells).take i).length = i := by
    rw [List.length_take, Grid.behaveLoop_length]
    simp only [List.length_nil, Nat.zero_add]
    omega
  split
  · rename_i hp
    rw [← Grid.behaveLoop_lifeOf, lifeOf_eq, lifeOf_eq,
      List.getElem?_append_left (by omega), List.getElem?_take_of_lt hp]
  · rename_i hp
    rw [lifeOf_eq, lifeOf_eq, List.getElem?_append_right (by omega), hlen, List.getElem?_drop]
    rw [show i + (p - i) = p by omega]

/-- A cell's `Cell::Behave` image depends on the vector only through the
remaining lives it reads. -/
theorem Cell.Behave_congr (cs cs2 : List Cell) (c : Cell)
    (h : ∀ p, lifeOf cs p = lifeOf cs2 p) : Cell.Behave cs c = Cell.Behave cs2 c := by
  unfold Cell.Behave
  have : (fun p => decide ((deref cs p)._remainingCyclesToLive > Config.MinCycleToLiveToReproduce))
      = (fun p => decide ((deref cs2 p)._remainingCyclesToLive > Config.MinCycleToLiveToReproduce)) := by
    funext p
    have := h p
    unfold lifeOf at this
    rw [this]
  rw [this]

theorem Grid.applyLoop_length (cells : List Cell) (r : RNG) :
    (Grid.applyLoop cells r).1.length = cells.length := by
  induction cells generalizing r with
  | nil => rfl
  | cons c cells ih => simp [Grid.applyLoop, ih]

theorem Grid.applyLoop_distribution (cells : List Cell) (r : RNG) :
    (Grid.applyLoop cells r).2.distribution = r.distribution := by
  induction cells generalizing r with
  | nil => rfl
  | cons c cells ih => simp [Grid.applyLoop, ih, Cell.ApplyStatus_distribution]

/-- The second loop replaces every cell by its `Cell::ApplyStatus` image, for
some state of the generator that draws from the same sequence. -/
theorem Grid.applyLoop_getElem? (cells : List Cell) (r : RNG) (i : Nat) (c : Cell)
    (h : cells[i]? = some c) :
    ∃ r2 : RNG, r2.distribution = r.distribution ∧
      (Grid.applyLoop cells r).1[i]? = some (c.ApplyStatus r2).1 := by
  induction cells generalizing r i with
  | nil => simp at h
  | cons c0 cells ih =>
    cases i with
    | zero =>
      simp only [List.getElem?_cons_zero, Option.some.injEq] at h
      subst h
      exact ⟨r, rfl, by simp [Grid.applyLoop]⟩
    | succ i =>
      simp only [List.getElem?_cons_succ] at h
      obtain ⟨r2, hr2, hget⟩ := ih (c0.ApplyStatus r).2 i h
      refine ⟨r2, ?_, ?_⟩
      · rw [hr2, Cell.ApplyStatus_distribution]
      · simpa [Grid.applyLoop] using hget

theorem Grid.applyLoop_allSame (cells : List Cell) (r : RNG) :
    AllSame (Grid.applyLoop cells r).1 := by
  induction cells generalizing r with
  | nil => intro c hc; simp [Grid.applyLoop] at hc
  | cons c0 cells ih =>
    intro c hc
    simp only [Grid.applyLoop, List.mem_cons] at hc
    rcases hc with hc | hc
    · rw [hc]; exact Cell.ApplyStatus_status _ _
    · exact ih _ c hc

/-! ## One generation, cell by cell -/

theorem getElem?_eq_deref (cells : List Cell) (i : Nat) (hi : i < cells.length) :
    cells[i]? = some (deref cells i) := by
  unfold deref
  rw [List.getD_eq_getElem?_getD, List.getElem?_eq_getElem hi]
  rfl

theorem deref_of_getElem? (cells : List Cell) (i : Nat) (c : Cell) (h : cells[i]? = some c) :
    deref cells i = c := by
  unfold deref
  rw [List.getD_eq_getElem?_getD, h]
  rfl

theorem Grid.Behave_length (g : Grid) (r : RNG) :
    (g.Behave r).1._cells.length = g._cells.length := by
  simp [Grid.Behave, Grid.applyLoop_length, Grid.behaveLoop_length]

theorem Grid.Behave_allSame (g : Grid) (r : RNG) : AllSame (g.Behave r).1._cells :=
  Grid.applyLoop_allSame _ _

theorem Grid.Behave_distribution (g : Grid) (r : RNG) :
    (g.Behave r).2.distribution = r.distribution :=
  Grid.applyLoop_distribution _ _

/-- One generation replaces the cell at index `i` by the `Cell::ApplyStatus`
image of its `Cell::Behave` image. -/
theorem Grid.Behave_cell (g : Grid) (r : RNG) (i : Nat) (hi : i < g._cells.length) :
    ∃ r2 : RNG, r2.distribution = r.distribution ∧
      deref (g.Behave r).1._cells i =
        ((Cell.Behave (Grid.viewAt g._cells i) (deref g._cells i)).ApplyStatus r2).1 := by
  have h1 := Grid.behaveLoop_getElem? [] g._cells i _ (getElem?_eq_deref g._cells i hi)
  simp only [List.length_nil, Nat.zero_add] at h1
  obtain ⟨r2, hr2, hget⟩ := Grid.applyLoop_getElem? _ r i _ h1
  exact ⟨r2, hr2, deref_of_getElem? _ _ _ hget⟩

/-- What a dead cell stages: birth when more than two of the cells it points
to are mature as read (those stored before it have already lost one cycle),
and otherwise what was staged before. -/
theorem Grid.staged_dead (cells : List Cell) (i : Nat) (hi : i < cells.length)
    (hdead : lifeOf cells i = 0) :
    (Cell.Behave (Grid.viewAt cells i) (deref cells i))._nextStatus =
      if 2 < (deref cells i)._adjacentCells.countP
          (fun p => decide ((p < i ∧ 3 < lifeOf cells p) ∨ (i < p ∧ 2 < lifeOf cells p)))
      then NextStatus.WillBorn else (deref cells i)._nextStatus := by
  rw [Cell.Behave_status_dead _ _ hdead]
  have hc : (deref cells i)._adjacentCells.countP (fun p => decide (2 < lifeOf (Grid.viewAt cells i) p))
      = (deref cells i)._adjacentCells.countP
          (fun p => decide ((p < i ∧ 3 < lifeOf cells p) ∨ (i < p ∧ 2 < lifeOf cells p))) := by
    apply List.countP_congr
    intro p _
    simp only [decide_eq_true_eq]
    unfold Grid.viewAt
    rw [Grid.behaveLoop_view cells i p (by omega)]
    by_cases hp : p < i
    · rw [if_pos hp]; omega
    · rw [if_neg hp]
      by_cases hpi : p = i
      · subst hpi; omega
      · omega
  rw [hc]

/-- The number of mature cells as read never exceeds the number of cells that
were mature when the generation started. -/
theorem Grid.countP_read_le (cells : List Cell) (i : Nat) (adj : List Nat) :
    adj.countP (fun p => decide ((p < i ∧ 3 < lifeOf cells p) ∨ (i < p ∧ 2 < lifeOf cells p)))
      ≤ adj.countP (fun p => decide (2 < lifeOf cells p)) := by
  apply List.countP_mono_left
  intro p _ h
  simp only [decide_eq_true_eq] at h ⊢
  omega

/-- The life of a cell after one generation, in terms of what it staged. -/
theorem Grid.Behave_lifeOf (g : Grid) (r : RNG) (i : Nat) (hi : i < g._cells.length) :
    ∃ r2 : RNG, r2.distribution = r.distribution ∧
      lifeOf (g.Behave r).1._cells i =
        ((Cell.Behave (Grid.viewAt g._cells i) (deref g._cells i)).ApplyStatus r2).1._remainingCyclesToLive := by
  obtain ⟨r2, hr2, h⟩ := Grid.Behave_cell g r i hi
  exact ⟨r2, hr2, by unfold lifeOf; rw [h]⟩

/-- A living cell with nothing staged loses exactly one cycle in a generation. -/
theorem Grid.Behave_lifeOf_alive (g : Grid) (r : RNG) (i : Nat) (hi : i < g._cells.length)
    (hsame : (deref g._cells i)._nextStatus = NextStatus.Same)
    (halive : 0 < lifeOf g._cells i) :
    lifeOf (g.Behave r).1._cells i = lifeOf g._cells i - 1 := by
  obtain ⟨r2, _, h⟩ := Grid.Behave_lifeOf g r i hi
  rw [h]
  have hne : (deref g._cells i)._remainingCyclesToLive ≠ 0 := by
    unfold lifeOf at halive; omega
  have hst := Cell.Behave_status_alive (Grid.viewAt g._cells i) _ hne
  have hl := Cell.Behave_life (Grid.viewAt g._cells i) (deref g._cells i)
  by_cases h1 : (deref g._cells i)._remainingCyclesToLive = 1
  · rw [if_pos h1] at hst
    rw [(Cell.ApplyStatus_die _ r2 hst).1]
    unfold lifeOf; omega
  · rw [if_neg h1, hsame] at hst
    rw [Cell.ApplyStatus_same _ r2 hst, hl]
    rfl

theorem AllSame_deref (cells : List Cell) (h : AllSame cells) (i : Nat) :
    (deref cells i)._nextStatus = NextStatus.Same := by
  by_cases hi : i < cells.length
  · have := getElem?_eq_deref cells i hi
    exact h _ (List.getElem?_mem this)
  · unfold deref
    rw [List.getD_eq_getElem?_getD, List.getElem?_eq_none (by omega)]
    rfl

theorem Grid.generations_succ (k : Nat) (st : Grid × RNG) :
    Grid.generations (k + 1) st = (Grid.generations k st).1.Behave (Grid.generations k st).2 := by
  induction k generalizing st with
  | zero => rfl
  | succ k ih =>
    rw [Grid.generations, ih]
    rfl

theorem Grid.generations_invariant (k : Nat) (g : Grid) (r : RNG) (hsame : AllSame g._cells) :
    AllSame (Grid.generations k (g, r)).1._cells ∧
      (Grid.generations k (g, r)).1._cells.length = g._cells.length := by
  induction k with
  | zero => exact ⟨hsame, rfl⟩
  | succ k ih =>
    rw [Grid.generations_succ]
    exact ⟨Grid.Behave_allSame _ _, by rw [Grid.Behave_length, ih.2]⟩

theorem Grid.generations_lifeOf (k : Nat) (g : Grid) (r : RNG) (i : Nat)
    (hi : i < g._cells.length) (hsame : AllSame g._cells) (hk : k ≤ lifeOf g._cells i) :
    lifeOf (Grid.generations k (g, r)).1._cells i = lifeOf g._cells i - k := by
  induction k with
  | zero => rfl
  | succ k ih =>
    have hinv := Grid.generations_invariant k g r hsame
    rw [Grid.generations_succ,
      Grid.Behave_lifeOf_alive _ _ i (by rw [hinv.2]; exact hi) (AllSame_deref _ hinv.1 i)
        (by rw [ih (by omega)]; omega),
      ih (by omega)]
    omega

theorem RNG.const_inRange (v : Int) (h : 2 ≤ v ∧ v ≤ 10) : (RNG.const v).InRange := by
  intro n
  simpa [RNG.const, Config.MaxCellLifeLength] using h

/-- A dead cell that reads more than two mature neighbours is born: after the
generation its life is a draw of the generator. -/
theorem Grid.Behave_born (g : Grid) (r : RNG) (i : Nat)
    (hr : r.InRange) (hi : i < g._cells.length) (hdead : lifeOf g._cells i = 0)
    (h : 2 < (deref g._cells i)._adjacentCells.countP
        (fun p => decide ((p < i ∧ 3 < lifeOf g._cells p) ∨ (i < p ∧ 2 < lifeOf g._cells p)))) :
    0 < lifeOf (g.Behave r).1._cells i
      ∧ 2 ≤ lifeOf (g.Behave r).1._cells i ∧ lifeOf (g.Behave r).1._cells i ≤ 10 := by
  obtain ⟨r2, hr2, h2⟩ := Grid.Behave_lifeOf g r i hi
  have hst := Grid.staged_dead g._cells i hi hdead
  rw [if_pos h] at hst
  rw [h2, Cell.ApplyStatus_born _ r2 hst, hr2]
  have := toSizeT_of_inRange _ (hr r2.generator)
  omega

/-! ## The birth rule -/

set_option maxRecDepth 100000 in
/-- C1, as stated, fails. On the 3×3 grid with lives `0 3 0 / 3 0 0 / 0 5 0`
and nothing staged, the dead centre (index 4) has exactly 3 neighbours whose
remaining life exceeds 2 at the start of the call, yet it is still dead after
one `Grid::Behave`: the cells at indices 1 and 3 are visited before the centre
and are down to 2 when the centre counts them. -/
theorem birth_rule_start_count_fails :
    ((Grid.ofLives 3 [0, 3, 0, 3, 0, 0, 0, 5, 0]).IsStateOf 3
      ∧ AllSame (Grid.ofLives 3 [0, 3, 0, 3, 0, 0, 0, 5, 0])._cells
      ∧ (RNG.const 5).InRange
      ∧ lifeOf (Grid.ofLives 3 [0, 3, 0, 3, 0, 0, 0, 5, 0])._cells 4 = 0
      ∧ (deref (Grid.ofLives 3 [0, 3, 0, 3, 0, 0, 0, 5, 0])._cells 4)._adjacentCells.countP
          (fun p => decide (2 < lifeOf (Grid.ofLives 3 [0, 3, 0, 3, 0, 0, 0, 5, 0])._cells p)) = 3)
    ∧ lifeOf ((Grid.ofLives 3 [0, 3, 0, 3, 0, 0, 0, 5, 0]).Behave (RNG.const 5)).1._cells 4 = 0 :=
  ⟨⟨by decide, by decide, RNG.const_inRange 5 (by decide), by decide, by decide⟩, by decide⟩

/-- C1, amended. In every grid state, for every generator whose draws lie in
`[2, 10]` and every dead cell stored at index `i`: if exactly 3 of its
neighbours are mature as the cell reads them, that is, have remaining life
above 3 at the start of the call when stored before `i` and above 2 when stored
after `i`, then the cell is alive after one `Grid::Behave`. (No assumption on
the adjacency lists or on the staged transitions is needed.) -/
theorem birth_rule_as_read (g : Grid) (r : RNG) (i : Nat)
    (hr : r.InRange) (hi : i < g._cells.length) (hdead : lifeOf g._cells i = 0)
    (h3 : (deref g._cells i)._adjacentCells.countP
        (fun p => decide ((p < i ∧ 3 < lifeOf g._cells p) ∨ (i < p ∧ 2 < lifeOf g._cells p))) = 3) :
    0 < lifeOf (g.Behave r).1._cells i := by
  exact (Grid.Behave_born g r i hr hi hdead (by rw [h3]; decide)).1

set_option maxRecDepth 100000 in
/-- The amended birth rule on the 3×3 grid with lives `0 5 0 / 5 0 0 / 0 5 0`. -/
theorem birth_rule_as_read_witness :
    0 < lifeOf ((Grid.ofLives 3 [0, 5, 0, 5, 0, 0, 0, 5, 0]).Behave (RNG.const 5)).1._cells 4 :=
  birth_rule_as_read (Grid.ofLives 3 [0, 5, 0, 5, 0, 0, 0, 5, 0]) (RNG.const 5) 4
    (RNG.const_inRange 5 (by decide)) (by decide) (by decide) (by decide)

/-- C2. In every grid state with nothing staged, a dead cell (index `i`) of
which at most 2 neighbours have remaining life above 2 at the start of the
call is still dead after one `Grid::Behave`; after the first loop it has no
transition staged, so the `Cell::ApplyStatus` call made for it leaves the
generator as it finds it: no lifespan is drawn for the cell. -/
theorem birth_rule_negative (g : Grid) (r : RNG) (i : Nat)
    (hi : i < g._cells.length) (hsame : AllSame g._cells) (hdead : lifeOf g._cells i = 0)
    (h2 : (deref g._cells i)._adjacentCells.countP
        (fun p => decide (2 < lifeOf g._cells p)) ≤ 2) :
    lifeOf (g.Behave r).1._cells i = 0
      ∧ (deref (Grid.behaveLoop [] g._cells) i)._nextStatus = NextStatus.Same
      ∧ ∀ r2 : RNG, ((deref (Grid.behaveLoop [] g._cells) i).ApplyStatus r2).2 = r2 := by
  have hle := Grid.countP_read_le g._cells i (deref g._cells i)._adjacentCells
  have hst := Grid.staged_dead g._cells i hi hdead
  rw [if_neg (by omega), AllSame_deref _ hsame i] at hst
  have hloop : deref (Grid.behaveLoop [] g._cells) i
      = Cell.Behave (Grid.viewAt g._cells i) (deref g._cells i) := by
    have h1 := Grid.behaveLoop_getElem? [] g._cells i _ (getElem?_eq_deref g._cells i hi)
    simp only [List.length_nil, Nat.zero_add] at h1
    exact deref_of_getElem? _ _ _ h1
  refine ⟨?_, ?_, ?_⟩
  · obtain ⟨r2, _, h⟩ := Grid.Behave_lifeOf g r i hi
    rw [h, Cell.ApplyStatus_same _ r2 hst, Cell.Behave_life]
    unfold lifeOf at hdead
    omega
  · rw [hloop]; exact hst
  · intro r2
    rw [hloop, Cell.ApplyStatus_same _ r2 hst]

set_option maxRecDepth 100000 in
/-- C2 on the 3×3 grid with lives `0 5 0 / 5 0 0 / 0 0 0`: the centre has 2
mature neighbours and stays dead. -/
theorem birth_rule_negative_witness :
    lifeOf ((Grid.ofLives 3 [0, 5, 0, 5, 0, 0, 0, 0, 0]).Behave (RNG.const 5)).1._cells 4 = 0
      ∧ (deref (Grid.behaveLoop [] (Grid.ofLives 3 [0, 5, 0, 5, 0, 0, 0, 0, 0])._cells) 4)._nextStatus
          = NextStatus.Same
      ∧ ∀ r2 : RNG,
          ((deref (Grid.behaveLoop [] (Grid.ofLives 3 [0, 5, 0, 5, 0, 0, 0, 0, 0])._cells) 4).ApplyStatus
            r2).2 = r2 :=
  birth_rule_negative (Grid.ofLives 3 [0, 5, 0, 5, 0, 0, 0, 0, 0]) (RNG.const 5) 4
    (by decide) (by decide) (by decide) (by decide)

/-! ## Decay and death -/

/-- C3. In every grid state with nothing staged, a cell with remaining life
`L > 0` has remaining life exactly `L - 1` after one `Grid::Behave`, whatever
its neighbours and whatever the generator returns; so it is dead afterwards
exactly when `L = 1`. -/
theorem monotonic_decay (g : Grid) (r : RNG) (i : Nat)
    (hi : i < g._cells.length) (hsame : AllSame g._cells) (halive : 0 < lifeOf g._cells i) :
    lifeOf (g.Behave r).1._cells i = lifeOf g._cells i - 1
      ∧ (lifeOf (g.Behave r).1._cells i = 0 ↔ lifeOf g._cells i = 1) := by
  have h := Grid.Behave_lifeOf_alive g r i hi (AllSame_deref _ hsame i) halive
  exact ⟨h, by omega⟩

set_option maxRecDepth 100000 in
/-- C3 on the 3×3 grid with lives `0 5 0 / 5 0 0 / 0 5 0`, at the cell of index 7. -/
theorem monotonic_decay_witness :
    lifeOf ((Grid.ofLives 3 [0, 5, 0, 5, 0, 0, 0, 5, 0]).Behave (RNG.const 9)).1._cells 7
        = lifeOf (Grid.ofLives 3 [0, 5, 0, 5, 0, 0, 0, 5, 0])._cells 7 - 1
      ∧ (lifeOf ((Grid.ofLives 3 [0, 5, 0, 5, 0, 0, 0, 5, 0]).Behave (RNG.const 9)).1._cells 7 = 0
          ↔ lifeOf (Grid.ofLives 3 [0, 5, 0, 5, 0, 0, 0, 5, 0])._cells 7 = 1) :=
  monotonic_decay (Grid.ofLives 3 [0, 5, 0, 5, 0, 0, 0, 5, 0]) (RNG.const 9) 7
    (by decide) (by decide) (by decide)

/-- C4. In every grid state with nothing staged, a cell with remaining life
`L` (in particular `L ≥ 1`) has remaining life `L - k` after `k ≤ L`
consecutive calls of `Grid::Behave`; hence it is alive after each of the first
`L - 1` generations and dead, for the first time, after exactly `L` of them. -/
theorem death_exactness (g : Grid) (r : RNG) (i L : Nat)
    (hi : i < g._cells.length) (hsame : AllSame g._cells)
    (hL : lifeOf g._cells i = L) :
    (∀ k, k ≤ L → lifeOf (Grid.generations k (g, r)).1._cells i = L - k)
      ∧ (∀ k, k < L → 0 < lifeOf (Grid.generations k (g, r)).1._cells i)
      ∧ lifeOf (Grid.generations L (g, r)).1._cells i = 0 := by
  have key : ∀ k, k ≤ L → lifeOf (Grid.generations k (g, r)).1._cells i = L - k := by
    intro k hk
    rw [Grid.generations_lifeOf k g r i hi hsame (by omega), hL]
  refine ⟨key, ?_, ?_⟩
  · intro k hk
    rw [key k (by omega)]
    omega
  · rw [key L (by omega)]
    omega

set_option maxRecDepth 100000 in
/-- C4 on the 2×2 grid with lives `2 0 / 0 0`, at the cell of index 0. -/
theorem death_exactness_witness :
    (∀ k, k ≤ 2 → lifeOf (Grid.generations k (Grid.ofLives 2 [2, 0, 0, 0], RNG.const 5)).1._cells 0
        = 2 - k)
      ∧ (∀ k, k < 2 →
          0 < lifeOf (Grid.generations k (Grid.ofLives 2 [2, 0, 0, 0], RNG.const 5)).1._cells 0)
      ∧ lifeOf (Grid.generations 2 (Grid.ofLives 2 [2, 0, 0, 0], RNG.const 5)).1._cells 0 = 0 :=
  death_exactness (Grid.ofLives 2 [2, 0, 0, 0]) (RNG.const 5) 0 2
    (by decide) (by decide) (by decide)

/-! ## The lifespan bound -/

/-- C5. For a generator whose draws lie in `[2, 10]`: right after `Cell::Born`
the cell's remaining life is in `[2, 10]`, and in every grid state with
nothing staged a cell that is dead before and alive after one `Grid::Behave`
has its remaining life in `[2, 10]` at the end of the call. -/
theorem lifespan_bound (r : RNG) (hr : r.InRange) :
    (∀ c : Cell, 2 ≤ (c.Born r).1._remainingCyclesToLive
        ∧ (c.Born r).1._remainingCyclesToLive ≤ Config.MaxCellLifeLength)
      ∧ ∀ (g : Grid) (i : Nat), i < g._cells.length → AllSame g._cells →
          lifeOf g._cells i = 0 → 0 < lifeOf (g.Behave r).1._cells i →
          2 ≤ lifeOf (g.Behave r).1._cells i
            ∧ lifeOf (g.Behave r).1._cells i ≤ Config.MaxCellLifeLength := by
  constructor
  · intro c
    have := toSizeT_of_inRange _ (hr r.generator)
    simpa [Cell.Born, RNG.Get, Config.MaxCellLifeLength] using this
  · intro g i hi hsame hdead halive
    obtain ⟨r2, hr2, h⟩ := Grid.Behave_lifeOf g r i hi
    have hst := Grid.staged_dead g._cells i hi hdead
    rw [AllSame_deref _ hsame i] at hst
    rw [h] at halive ⊢
    split at hst
    · rw [Cell.ApplyStatus_born _ r2 hst, hr2]
      have := toSizeT_of_inRange _ (hr r2.generator)
      simpa [Config.MaxCellLifeLength] using this
    · rw [Cell.ApplyStatus_same _ r2 hst, Cell.Behave_life] at halive
      unfold lifeOf at hdead
      omega

set_option maxRecDepth 100000 in
/-- C5 for the generator that always returns 7, on a fresh cell and on the
centre of the 3×3 grid with lives `0 5 0 / 5 0 0 / 0 5 0`. -/
theorem lifespan_bound_witness :
    (2 ≤ (({} : Cell).Born (RNG.const 7)).1._remainingCyclesToLive
        ∧ (({} : Cell).Born (RNG.const 7)).1._remainingCyclesToLive ≤ Config.MaxCellLifeLength)
      ∧ 2 ≤ lifeOf ((Grid.ofLives 3 [0, 5, 0, 5, 0, 0, 0, 5, 0]).Behave (RNG.const 7)).1._cells 4
      ∧ lifeOf ((Grid.ofLives 3 [0, 5, 0, 5, 0, 0, 0, 5, 0]).Behave (RNG.const 7)).1._cells 4
          ≤ Config.MaxCellLifeLength :=
  ⟨(lifespan_bound (RNG.const 7) (RNG.const_inRange 7 (by decide))).1 {},
    (lifespan_bound (RNG.const 7) (RNG.const_inRange 7 (by decide))).2
      (Grid.ofLives 3 [0, 5, 0, 5, 0, 0, 0, 5, 0]) 4 (by decide) (by decide) (by decide) (by decide)⟩

/-! ## The adjacency construction -/

theorem toSizeT_natCast (n : Nat) (h : n < 18446744073709551616) : toSizeT (n : Int) = n := by
  unfold toSizeT
  omega

theorem toSizeT_toLongLong (u : Nat) (h : u < 18446744073709551616) :
    toSizeT (toLongLong u) = u := by
  unfold toSizeT toLongLong
  split <;> omega

theorem sizeSub_lt (a b : Nat) : sizeSub a b < 18446744073709551616 := by
  unfold sizeSub
  omega

theorem sizeAdd_lt (a b : Nat) : sizeAdd a b < 18446744073709551616 := by
  unfold sizeAdd
  omega

theorem sizeSub_eq (a b : Nat) (hb : b ≤ a) (ha : a < 18446744073709551616) :
    sizeSub a b = a - b := by
  unfold sizeSub
  omega

theorem sizeAdd_eq (a b : Nat) (h : a + b < 18446744073709551616) : sizeAdd a b = a + b := by
  unfold sizeAdd
  omega

/-- The index that `_cells.at(N)` receives. -/
theorem Grid.index_N (k size : Nat) (hk : k < 2147483648) (hs : size ≤ k) :
    toSizeT (toLongLong (sizeSub (toSizeT (k : Int)) size)) = k - size := by
  rw [toSizeT_toLongLong _ (sizeSub_lt _ _), toSizeT_natCast k (by omega),
    sizeSub_eq _ _ hs (by omega)]

/-- The index that `_cells.at(NE)` receives. -/
theorem Grid.index_NE (k size : Nat) (hk : k < 2147483648) (hs : size ≤ k) :
    toSizeT (toLongLong (sizeAdd (sizeSub (toSizeT (k : Int)) size) 1)) = k - size + 1 := by
  rw [toSizeT_toLongLong _ (sizeAdd_lt _ _), toSizeT_natCast k (by omega),
    sizeSub_eq k size hs (by omega), sizeAdd_eq _ _ (by omega)]

/-- The index that `_cells.at(NW)` receives. -/
theorem Grid.index_NW (k size : Nat) (hk : k < 2147483648) (hs : size + 1 ≤ k) :
    toSizeT (toLongLong (sizeSub (sizeSub (toSizeT (k : Int)) size) 1)) = k - size - 1 := by
  rw [toSizeT_toLongLong _ (sizeSub_lt _ _), toSizeT_natCast k (by omega),
    sizeSub_eq k size (by omega) (by omega), sizeSub_eq _ _ (by omega) (by omega)]

/-- The index that `_cells.at(S)` receives. -/
theorem Grid.index_S (k size : Nat) (hk : k + size < 2147483648) :
    toSizeT (toLongLong (sizeAdd (toSizeT (k : Int)) size)) = k + size := by
  rw [toSizeT_toLongLong _ (sizeAdd_lt _ _), toSizeT_natCast k (by omega),
    sizeAdd_eq _ _ (by omega)]

/-- The index that `_cells.at(SE)` receives. -/
theorem Grid.index_SE (k size : Nat) (hk : k + size + 1 < 2147483648) :
    toSizeT (toLongLong (sizeAdd (sizeAdd (toSizeT (k : Int)) size) 1)) = k + size + 1 := by
  rw [toSizeT_toLongLong _ (sizeAdd_lt _ _), toSizeT_natCast k (by omega),
    sizeAdd_eq k size (by omega), sizeAdd_eq _ _ (by omega)]

/-- The index that `_cells.at(SW)` receives. -/
theorem Grid.index_SW (k size : Nat) (hk : k + size < 2147483648) (h1 : 1 ≤ k + size) :
    toSizeT (toLongLong (sizeSub (sizeAdd (toSizeT (k : Int)) size) 1)) = k + size - 1 := by
  rw [toSizeT_toLongLong _ (sizeSub_lt _ _), toSizeT_natCast k (by omega),
    sizeAdd_eq k size (by omega), sizeSub_eq _ _ (by omega) (by omega)]

/-- The index that `_cells.at(E)` receives. -/
theorem Grid.index_E (k : Nat) (hk : k < 2147483648) : toSizeT ((k : Int) + 1) = k + 1 := by
  unfold toSizeT
  omega

/-- The index that `_cells.at(W)` receives. -/
theorem Grid.index_W (k : Nat) (hk : k < 2147483648) (h1 : 1 ≤ k) :
    toSizeT ((k : Int) - 1) = k - 1 := by
  unfold toSizeT
  omega

/-- One `push_back` of the constructor, when both indices are in range. -/
theorem Grid.link_eq (cells : List Cell) (k : Nat) (a : List Nat) (target : Int) (t : Nat)
    (hk : k < cells.length) (hk64 : k < 2147483648)
    (ht : toSizeT target = t) (htl : t < cells.length) :
    Grid.link (cells.set k { _adjacentCells := a }) (k : Int) target
      = some (cells.set k { _adjacentCells := a ++ [t] }) := by
  unfold Grid.link vectorAt
  rw [ht, toSizeT_natCast k (by omega)]
  have h1 : (cells.set k { _adjacentCells := a })[k]? = some { _adjacentCells := a } := by
    rw [List.getElem?_set_self hk]
  have h2 : ∃ c, (cells.set k ({ _adjacentCells := a } : Cell))[t]? = some c := by
    have : t < (cells.set k ({ _adjacentCells := a } : Cell)).length := by
      rw [List.length_set]; exact htl
    exact ⟨_, List.getElem?_eq_getElem this⟩
  obtain ⟨c, hc⟩ := h2
  rw [h1, hc]
  simp [List.set_set]

theorem Grid.link_N (cells : List Cell) (k size : Nat) (a : List Nat)
    (hk : k < cells.length) (hk64 : k < 2147483648) (hs : size ≤ k) :
    Grid.link (cells.set k { _adjacentCells := a }) (k : Int)
        (toLongLong (sizeSub (toSizeT (k : Int)) size))
      = some (cells.set k { _adjacentCells := a ++ [k - size] }) :=
  Grid.link_eq cells k a _ _ hk hk64 (Grid.index_N k size hk64 hs) (by omega)

theorem Grid.link_NE (cells : List Cell) (k size : Nat) (a : List Nat)
    (hk : k < cells.length) (hk64 : k < 2147483648) (hs : size ≤ k) (h1 : 1 ≤ size) :
    Grid.link (cells.set k { _adjacentCells := a }) (k : Int)
        (toLongLong (sizeAdd (sizeSub (toSizeT (k : Int)) size) 1))
      = some (cells.set k { _adjacentCells := a ++ [k - size + 1] }) :=
  Grid.link_eq cells k a _ _ hk hk64 (Grid.index_NE k size hk64 hs) (by omega)

theorem Grid.link_NW (cells : List Cell) (k size : Nat) (a : List Nat)
    (hk : k < cells.length) (hk64 : k < 2147483648) (hs : size + 1 ≤ k) :
    Grid.link (cells.set k { _adjacentCells := a }) (k : Int)
        (toLongLong (sizeSub (sizeSub (toSizeT (k : Int)) size) 1))
      = some (cells.set k { _adjacentCells := a ++ [k - size - 1] }) :=
  Grid.link_eq cells k a _ _ hk hk64 (Grid.index_NW k size hk64 hs) (by omega)

theorem Grid.link_S (cells : List Cell) (k size : Nat) (a : List Nat)
    (hk : k < cells.length) (hk64 : cells.length < 2147483648) (hs : k + size < cells.length) :
    Grid.link (cells.set k { _adjacentCells := a }) (k : Int)
        (toLongLong (sizeAdd (toSizeT (k : Int)) size))
      = some (cells.set k { _adjacentCells := a ++ [k + size] }) :=
  Grid.link_eq cells k a _ _ hk (by omega) (Grid.index_S k size (by omega)) hs

theorem Grid.link_SE (cells : List Cell) (k size : Nat) (a : List Nat)
    (hk : k < cells.length) (hk64 : cells.length < 2147483648)
    (hs : k + size + 1 < cells.length) :
    Grid.link (cells.set k { _adjacentCells := a }) (k : Int)
        (toLongLong (sizeAdd (sizeAdd (toSizeT (k : Int)) size) 1))
      = some (cells.set k { _adjacentCells := a ++ [k + size + 1] }) :=
  Grid.link_eq cells k a _ _ hk (by omega) (Grid.index_SE k size (by omega)) hs

theorem Grid.link_SW (cells : List Cell) (k size : Nat) (a : List Nat)
    (hk : k < cells.length) (hk64 : cells.length < 2147483648)
    (hs : k + size < cells.length + 1) (h1 : 1 ≤ k + size) :
    Grid.link (cells.set k { _adjacentCells := a }) (k : Int)
        (toLongLong (sizeSub (sizeAdd (toSizeT (k : Int)) size) 1))
      = some (cells.set k { _adjacentCells := a ++ [k + size - 1] }) :=
  Grid.link_eq cells k a _ _ hk (by omega) (Grid.index_SW k size (by omega) h1) (by omega)

theorem Grid.link_E (cells : List Cell) (k : Nat) (a : List Nat)
    (hk : k + 1 < cells.length) (hk64 : cells.length < 2147483648) :
    Grid.link (cells.set k { _adjacentCells := a }) (k : Int) ((k : Int) + 1)
      = some (cells.set k { _adjacentCells := a ++ [k + 1] }) :=
  Grid.link_eq cells k a _ _ (by omega) (by omega) (Grid.index_E k (by omega)) hk

theorem Grid.link_W (cells : List Cell) (k : Nat) (a : List Nat)
    (hk : k < cells.length) (hk64 : cells.length < 2147483648) (h1 : 1 ≤ k) :
    Grid.link (cells.set k { _adjacentCells := a }) (k : Int) ((k : Int) - 1)
      = some (cells.set k { _adjacentCells := a ++ [k - 1] }) :=
  Grid.link_eq cells k a _ _ hk (by omega) (Grid.index_W k (by omega) h1) (by omega)

/-- The body of the second double loop appends `Grid.adjacencyOf` to the
adjacency list of the visited cell and increments `cellId`; no `at` throws. -/
theorem Grid.linkCell_eq (size x y k : Nat) (cells : List Cell)
    (hx : x < size) (hy : y < size) (hn : size * size < 2147483648)
    (hk : k = x + y * size) (hlen : cells.length = size * size)
    (hfresh : cells[k]? = some {}) :
    Grid.linkCell size y x (cells, (k : Int))
      = some (cells.set k { _adjacentCells := Grid.adjacencyOf size x y }, (k : Int) + 1) := by
  have hm1 : y * size + size ≤ size * size := by
    have : (y + 1) * size ≤ size * size := Nat.mul_le_mul_right size (by omega)
    rw [Nat.add_mul, Nat.one_mul] at this
    exact this
  have hm2 : y ≠ 0 → size ≤ y * size := fun h =>
    Nat.le_mul_of_pos_left size (Nat.pos_of_ne_zero h)
  have hm3 : y ≠ size - 1 → y * size + size + size ≤ size * size := by
    intro h
    have : (y + 2) * size ≤ size * size := Nat.mul_le_mul_right size (by omega)
    rw [Nat.add_mul] at this
    omega
  have hs1 : sizeSub size 1 = size - 1 := sizeSub_eq size 1 (by omega) (by omega)
  have hklt : k < cells.length := by omega
  have hcells : cells = cells.set k { _adjacentCells := [] } := by
    apply List.ext_getElem?
    intro j
    by_cases hj : k = j
    · subst hj
      rw [List.getElem?_set_self hklt, hfresh]
    · rw [List.getElem?_set_ne hj]
  unfold Grid.linkCell Grid.adjacencyOf
  simp only [hs1, ← hk]
  rw [hcells, List.set_set]
  have hlen2 : (cells.set k ({ _adjacentCells := [] } : Cell)).length = size * size := by
    rw [List.length_set]; exact hlen
  by_cases hy0 : y ≠ 0 <;> by_cases hy1 : y ≠ size - 1 <;>
    by_cases hx0 : x ≠ 0 <;> by_cases hx1 : x ≠ size - 1 <;>
    simp only [hy0, hy1, hx0, hx1, ne_eq, not_false_eq_true, if_true, if_false,
      Option.some_bind, List.nil_append, List.append_nil, List.append_assoc,
      List.singleton_append] <;>
    simp (disch := omega) only [Grid.link_N, Grid.link_NE, Grid.link_NW, Grid.link_S,
      Grid.link_SE, Grid.link_SW, Grid.link_E, Grid.link_W, Option.some_bind, List.nil_append,
      List.append_assoc, List.singleton_append, List.cons_append]

theorem Grid.linkedUpTo_length (size k : Nat) : (Grid.linkedUpTo size k).length = size * size := by
  simp [Grid.linkedUpTo]

theorem Grid.linkedUpTo_getElem? (size k j : Nat) (hj : j < size * size) :
    (Grid.linkedUpTo size k)[j]? =
      some (if j < k then { _adjacentCells := Grid.adjacencyOf size (j % size) (j / size) } else {}) := by
  unfold Grid.linkedUpTo
  rw [List.getElem?_map, List.getElem?_range hj]
  rfl

theorem Grid.linkedUpTo_set (size k : Nat) (hk : k < size * size) :
    (Grid.linkedUpTo size k).set k
        { _adjacentCells := Grid.adjacencyOf size (k % size) (k / size) }
      = Grid.linkedUpTo size (k + 1) := by
  apply List.ext_getElem?
  intro j
  by_cases hj : j < size * size
  · rw [List.getElem?_set, Grid.linkedUpTo_getElem? size (k + 1) j hj,
      Grid.linkedUpTo_getElem? size k j hj]
    by_cases hkj : k = j
    · subst hkj
      simp [Grid.linkedUpTo_length, hk]
    · have h1 : (j < k + 1) = (j < k) := by
        apply propext
        constructor <;> intro h <;> omega
      simp only [hkj, if_false, h1]
  · rw [List.getElem?_eq_none (by rw [List.length_set, Grid.linkedUpTo_length]; omega),
      List.getElem?_eq_none (by rw [Grid.linkedUpTo_length]; omega)]

/-- The inner loop of the second double loop, after `m` columns of row `y`. -/
theorem Grid.linkRow_eq (size y m : Nat) (hy : y < size) (hm : m ≤ size)
    (hn : size * size < 2147483648) :
    (List.range m).foldlM (fun st x_it => Grid.linkCell size y x_it st)
        (Grid.linkedUpTo size (y * size), ((y * size : Nat) : Int))
      = some (Grid.linkedUpTo size (y * size + m), ((y * size + m : Nat) : Int)) := by
  induction m with
  | zero => rfl
  | succ m ih =>
    have hrow : y * size + size ≤ size * size := by
      have : (y + 1) * size ≤ size * size := Nat.mul_le_mul_right size (by omega)
      rw [Nat.add_mul, Nat.one_mul] at this
      exact this
    have hk : y * size + m < size * size := by omega
    have hmod : (y * size + m) % size = m := by
      rw [Nat.add_comm, Nat.add_mul_mod_self_right, Nat.mod_eq_of_lt (by omega)]
    have hdiv : (y * size + m) / size = y := by
      rw [Nat.add_comm, Nat.add_mul_div_right _ _ (by omega), Nat.div_eq_of_lt (by omega),
        Nat.zero_add]
    rw [List.range_succ, List.foldlM_append, ih (by omega)]
    simp only [Option.bind_eq_bind, Option.some_bind, List.foldlM_cons, List.foldlM_nil]
    rw [Grid.linkCell_eq size m y (y * size + m) _ (by omega) hy hn (by omega)
      (Grid.linkedUpTo_length _ _)
      (by rw [Grid.linkedUpTo_getElem? _ _ _ hk, if_neg (by omega)])]
    have hset := Grid.linkedUpTo_set size (y * size + m) hk
    rw [hmod, hdiv] at hset
    rw [hset]
    simp only [Option.bind_eq_bind, Option.some_bind, pure]
    congr 1

/-- The second double loop, after `m` rows. -/
theorem Grid.linkRows_eq (size m : Nat) (hm : m ≤ size) (hn : size * size < 2147483648) :
    (List.range m).foldlM
        (fun st y_it =>
          (List.range size).foldlM (fun st x_it => Grid.linkCell size y_it x_it st) st)
        (Grid.linkedUpTo size 0, (0 : Int))
      = some (Grid.linkedUpTo size (m * size), ((m * size : Nat) : Int)) := by
  induction m with
  | zero => simp
  | succ m ih =>
    rw [List.range_succ, List.foldlM_append, ih (by omega)]
    simp only [Option.bind_eq_bind, Option.some_bind, List.foldlM_cons, List.foldlM_nil]
    rw [Grid.linkRow_eq size m size (by omega) (Nat.le_refl _) hn]
    simp only [Option.bind_eq_bind, Option.some_bind, pure]
    rw [show m * size + size = (m + 1) * size by rw [Nat.add_mul, Nat.one_mul]]

theorem Grid.allocate_row (m : Nat) (cells : List Cell) :
    (List.range m).foldl (fun cells _ => cells ++ [({} : Cell)]) cells
      = cells ++ List.replicate m ({} : Cell) := by
  induction m with
  | zero => simp
  | succ m ih =>
    rw [List.range_succ, List.foldl_append, ih]
    simp [List.replicate_succ']

/-- The first double loop allocates `size * size` fresh cells. -/
theorem Grid.allocate_eq (size : Nat) : Grid.allocate size = List.replicate (size * size) ({} : Cell) := by
  unfold Grid.allocate
  have h : ∀ m, (List.range m).foldl
      (fun cells _ => (List.range size).foldl (fun cells _ => cells ++ [({} : Cell)]) cells) []
        = List.replicate (m * size) ({} : Cell) := by
    intro m
    induction m with
    | zero => simp
    | succ m ih =>
      rw [List.range_succ, List.foldl_append, ih]
      simp only [List.foldl_cons, List.foldl_nil]
      rw [Grid.allocate_row, List.append_replicate_replicate, Nat.add_mul, Nat.one_mul]
  exact h size

theorem Grid.linkedUpTo_zero (size : Nat) :
    Grid.linkedUpTo size 0 = List.replicate (size * size) ({} : Cell) := by
  apply List.ext_getElem?
  intro j
  by_cases hj : j < size * size
  · rw [Grid.linkedUpTo_getElem? _ _ _ hj, List.getElem?_replicate, if_pos hj]
    simp
  · rw [List.getElem?_eq_none (by rw [Grid.linkedUpTo_length]; omega),
      List.getElem?_eq_none (by rw [List.length_replicate]; omega)]

/-- The constructor succeeds and gives the cell of index `j` the adjacency
list `Grid.adjacencyOf size (j % size) (j / size)`. -/
theorem Grid.ctor_eq (size : Nat) (hn : size * size < 2147483648) :
    Grid.ctor size
      = some { _cells := Grid.linkedUpTo size (size * size), _size := (size, size) } := by
  unfold Grid.ctor Grid.linkAll
  rw [Grid.allocate_eq, ← Grid.linkedUpTo_zero, Grid.linkRows_eq size size (Nat.le_refl _) hn]
  rfl

theorem Grid.ctor_adjacent (size x y : Nat) (hx : x < size) (hy : y < size) :
    (deref (Grid.linkedUpTo size (size * size)) (x + y * size))._adjacentCells
      = Grid.adjacencyOf size x y := by
  have hrow : y * size + size ≤ size * size := by
    have : (y + 1) * size ≤ size * size := Nat.mul_le_mul_right size (by omega)
    rw [Nat.add_mul, Nat.one_mul] at this
    exact this
  have hk : x + y * size < size * size := by omega
  have hmod : (x + y * size) % size = x := by
    rw [Nat.add_mul_mod_self_right, Nat.mod_eq_of_lt hx]
  have hdiv : (x + y * size) / size = y := by
    rw [Nat.add_mul_div_right _ _ (by omega), Nat.div_eq_of_lt hx, Nat.zero_add]
  rw [deref_of_getElem? _ _ _ (Grid.linkedUpTo_getElem? size (size * size) _ hk), if_pos hk,
    hmod, hdiv]

/-! ## Topology of the constructed grid -/

/-- How the first indices of two rows compare. -/
theorem Grid.rows_cases (size y y2 : Nat) :
    (y = y2 ∧ y * size = y2 * size)
      ∨ (y2 = y + 1 ∧ y2 * size = y * size + size)
      ∨ (y = y2 + 1 ∧ y * size = y2 * size + size)
      ∨ (y + 2 ≤ y2 ∧ y * size + size + size ≤ y2 * size)
      ∨ (y2 + 2 ≤ y ∧ y2 * size + size + size ≤ y * size) := by
  have key : ∀ a b : Nat, a + 2 ≤ b → a * size + size + size ≤ b * size := by
    intro a b h
    have : (a + 2) * size ≤ b * size := Nat.mul_le_mul_right size h
    rw [Nat.add_mul] at this
    omega
  by_cases h1 : y = y2
  · left; exact ⟨h1, by rw [h1]⟩
  by_cases h2 : y2 = y + 1
  · right; left; exact ⟨h2, by rw [h2, Nat.add_mul, Nat.one_mul]⟩
  by_cases h3 : y = y2 + 1
  · right; right; left; exact ⟨h3, by rw [h3, Nat.add_mul, Nat.one_mul]⟩
  by_cases h4 : y + 2 ≤ y2
  · right; right; right; left; exact ⟨h4, key _ _ h4⟩
  · right; right; right; right
    have h5 : y2 + 2 ≤ y := by omega
    exact ⟨h5, key _ _ h5⟩

/-- Distance 1 spelled out without `max`. -/
theorem Grid.distance_eq_one_iff (x y x2 y2 : Nat) :
    Grid.distance x y x2 y2 = 1 ↔
      x ≤ x2 + 1 ∧ x2 ≤ x + 1 ∧ y ≤ y2 + 1 ∧ y2 ≤ y + 1 ∧ (x ≠ x2 ∨ y ≠ y2) := by
  unfold Grid.distance absDiff
  rw [Nat.max_def]
  split <;> split <;> split <;> constructor <;> intro h <;> omega

/-- Membership in `Grid.adjacencyOf`, entry by entry. -/
theorem Grid.mem_adjacencyOf_ite (size x y p : Nat) :
    p ∈ Grid.adjacencyOf size x y ↔
      ((y ≠ 0 ∧ (p = x + y * size - size ∨ (x ≠ size - 1 ∧ p = x + y * size - size + 1)
            ∨ (x ≠ 0 ∧ p = x + y * size - size - 1)))
        ∨ (y ≠ size - 1 ∧ (p = x + y * size + size ∨ (x ≠ size - 1 ∧ p = x + y * size + size + 1)
            ∨ (x ≠ 0 ∧ p = x + y * size + size - 1)))
        ∨ (x ≠ size - 1 ∧ p = x + y * size + 1)
        ∨ (x ≠ 0 ∧ p = x + y * size - 1)) := by
  unfold Grid.adjacencyOf
  by_cases hy0 : y ≠ 0 <;> by_cases hy1 : y ≠ size - 1 <;>
    by_cases hx0 : x ≠ 0 <;> by_cases hx1 : x ≠ size - 1 <;>
    simp only [hy0, hy1, hx0, hx1, ne_eq, not_false_eq_true, if_true, if_false,
      List.nil_append, List.append_nil, List.mem_append, List.mem_cons, List.mem_singleton,
      List.not_mem_nil, or_false, false_or, true_and, false_and, or_assoc]

/-- Every cell listed by `Grid.adjacencyOf` is at distance 1. -/
theorem Grid.distance_of_mem (size x y x2 y2 : Nat)
    (hx : x < size) (hx2 : x2 < size)
    (h : x2 + y2 * size ∈ Grid.adjacencyOf size x y) : Grid.distance x y x2 y2 = 1 := by
  have hrows := Grid.rows_cases size y y2
  have hm2 : y ≠ 0 → size ≤ y * size := fun h =>
    Nat.le_mul_of_pos_left size (Nat.pos_of_ne_zero h)
  rw [Grid.mem_adjacencyOf_ite] at h
  rw [Grid.distance_eq_one_iff]
  generalize y * size = A at *
  generalize y2 * size = B at *
  revert h
  simp only [or_imp, and_imp]
  rcases hrows with ⟨h1, h2⟩ | ⟨h1, h2⟩ | ⟨h1, h2⟩ | ⟨h1, h2⟩ | ⟨h1, h2⟩ <;>
    and_intros <;> intros <;> omega

/-- Every cell at distance 1 is listed by `Grid.adjacencyOf`. -/
theorem Grid.mem_of_distance (size x y x2 y2 : Nat)
    (hy : y < size) (hx2 : x2 < size) (hy2 : y2 < size)
    (h : Grid.distance x y x2 y2 = 1) : x2 + y2 * size ∈ Grid.adjacencyOf size x y := by
  rw [Grid.mem_adjacencyOf_ite]
  rw [Grid.distance_eq_one_iff] at h
  have hc : x = x2 ∨ x2 = x + 1 ∨ x = x2 + 1 := by omega
  have hrows := Grid.rows_cases size y y2
  have hm2 : y ≠ 0 → size ≤ y * size := fun h =>
    Nat.le_mul_of_pos_left size (Nat.pos_of_ne_zero h)
  generalize y * size = A at *
  generalize y2 * size = B at *
  rcases hrows with ⟨h1, h2⟩ | ⟨h1, h2⟩ | ⟨h1, h2⟩ | ⟨h1, h2⟩ | ⟨h1, h2⟩ <;>
    rcases hc with h3 | h3 | h3
  · exfalso; omega
  · right; right; left; omega
  · right; right; right; omega
  · right; left; exact ⟨by omega, Or.inl (by omega)⟩
  · right; left; exact ⟨by omega, Or.inr (Or.inl ⟨by omega, by omega⟩)⟩
  · right; left; exact ⟨by omega, Or.inr (Or.inr ⟨by omega, by omega⟩)⟩
  · left; exact ⟨by omega, Or.inl (by omega)⟩
  · left; exact ⟨by omega, Or.inr (Or.inl ⟨by omega, by omega⟩)⟩
  · left; exact ⟨by omega, Or.inr (Or.inr ⟨by omega, by omega⟩)⟩
  all_goals (exfalso; omega)

/-- The cells listed by `Grid.adjacencyOf` are the cells at distance 1. -/
theorem Grid.mem_adjacencyOf (size x y x2 y2 : Nat)
    (hx : x < size) (hy : y < size) (hx2 : x2 < size) (hy2 : y2 < size) :
    x2 + y2 * size ∈ Grid.adjacencyOf size x y ↔ Grid.distance x y x2 y2 = 1 :=
  ⟨Grid.distance_of_mem size x y x2 y2 hx hx2, Grid.mem_of_distance size x y x2 y2 hy hx2 hy2⟩

/-- No cell is listed twice by `Grid.adjacencyOf`. -/
theorem Grid.nodup_adjacencyOf (size x y : Nat) (hx : x < size) (hy : y < size) :
    (Grid.adjacencyOf size x y).Nodup := by
  have hm2 : y ≠ 0 → size ≤ y * size := fun h =>
    Nat.le_mul_of_pos_left size (Nat.pos_of_ne_zero h)
  unfold Grid.adjacencyOf
  by_cases hy0 : y ≠ 0 <;> by_cases hy1 : y ≠ size - 1 <;>
    by_cases hx0 : x ≠ 0 <;> by_cases hx1 : x ≠ size - 1 <;>
    simp only [hy0, hy1, hx0, hx1, ne_eq, not_false_eq_true, if_true, if_false,
      List.nil_append, List.append_nil, List.append_assoc, List.singleton_append,
      List.cons_append, List.nodup_cons, List.nodup_nil, List.mem_cons, List.mem_singleton,
      List.not_mem_nil, not_or, and_true, or_false, not_false_eq_true] <;>
    omega

/-- The number of cells listed by `Grid.adjacencyOf`. -/
theorem Grid.length_adjacencyOf (size x y : Nat) :
    (Grid.adjacencyOf size x y).length =
      (if y ≠ 0 then 1 + (if x ≠ size - 1 then 1 else 0) + (if x ≠ 0 then 1 else 0) else 0)
        + (if y ≠ size - 1 then 1 + (if x ≠ size - 1 then 1 else 0) + (if x ≠ 0 then 1 else 0)
            else 0)
        + (if x ≠ size - 1 then 1 else 0) + (if x ≠ 0 then 1 else 0) := by
  unfold Grid.adjacencyOf
  by_cases hy0 : y ≠ 0 <;> by_cases hy1 : y ≠ size - 1 <;>
    by_cases hx0 : x ≠ 0 <;> by_cases hx1 : x ≠ size - 1 <;>
    simp only [hy0, hy1, hx0, hx1, ne_eq, not_false_eq_true, if_true, if_false,
      List.nil_append, List.append_nil, List.length_append, List.length_cons, List.length_nil]

/-- C6. For every `size ≥ 3` (with `size * size` within the range of the
`int` counter `cellId`) the constructor succeeds, and the adjacency list of the
cell at column `x`, row `y` has exactly 3 entries when the cell is a corner,
exactly 5 when it lies on the border but is not a corner, and exactly 8 when it
is interior. -/
theorem topology_counts (size x y : Nat) (h3 : 3 ≤ size) (hn : size * size < 2147483648)
    (hx : x < size) (hy : y < size) :
    ∃ g : Grid, Grid.ctor size = some g
      ∧ ((x = 0 ∨ x = size - 1) ∧ (y = 0 ∨ y = size - 1) →
          (deref g._cells (x + y * size))._adjacentCells.length = 3)
      ∧ ((x = 0 ∨ x = size - 1 ∨ y = 0 ∨ y = size - 1)
            ∧ ¬ ((x = 0 ∨ x = size - 1) ∧ (y = 0 ∨ y = size - 1)) →
          (deref g._cells (x + y * size))._adjacentCells.length = 5)
      ∧ (0 < x ∧ x < size - 1 ∧ 0 < y ∧ y < size - 1 →
          (deref g._cells (x + y * size))._adjacentCells.length = 8) := by
  refine ⟨_, Grid.ctor_eq size hn, ?_⟩
  simp only [Grid.ctor_adjacent size x y hx hy]
  have hlen := Grid.length_adjacencyOf size x y
  by_cases hy0 : y ≠ 0 <;> by_cases hy1 : y ≠ size - 1 <;>
    by_cases hx0 : x ≠ 0 <;> by_cases hx1 : x ≠ size - 1 <;>
    simp only [hy0, hy1, hx0, hx1, ne_eq, not_false_eq_true, if_true, if_false] at hlen <;>
    refine ⟨fun h => ?_, fun h => ?_, fun h => ?_⟩ <;> omega

set_option maxRecDepth 100000 in
/-- C6 on the 3×3 grid, at the border cell `(1, 0)`. -/
theorem topology_counts_witness :
    ∃ g : Grid, Grid.ctor 3 = some g
      ∧ ((1 = 0 ∨ 1 = 3 - 1) ∧ (0 = 0 ∨ 0 = 3 - 1) →
          (deref g._cells (1 + 0 * 3))._adjacentCells.length = 3)
      ∧ ((1 = 0 ∨ 1 = 3 - 1 ∨ 0 = 0 ∨ 0 = 3 - 1)
            ∧ ¬ ((1 = 0 ∨ 1 = 3 - 1) ∧ (0 = 0 ∨ 0 = 3 - 1)) →
          (deref g._cells (1 + 0 * 3))._adjacentCells.length = 5)
      ∧ (0 < 1 ∧ 1 < 3 - 1 ∧ 0 < 0 ∧ 0 < 3 - 1 →
          (deref g._cells (1 + 0 * 3))._adjacentCells.length = 8) :=
  topology_counts 3 1 0 (by decide) (by decide) (by decide) (by decide)

/-- C7. For every `size ≥ 1` (with `size * size` within the range of the `int`
counter `cellId`) and every two cells `(x, y)` and `(x2, y2)` of the grid that
the constructor builds: the second occurs in the adjacency list of the first
if and only if `max(|x - x2|, |y - y2|) = 1`, and then exactly once; no cell is
its own neighbour; adjacency is symmetric. -/
theorem moore_adjacency (size x y x2 y2 : Nat) (hn : size * size < 2147483648)
    (hx : x < size) (hy : y < size) (hx2 : x2 < size) (hy2 : y2 < size) :
    ∃ g : Grid, Grid.ctor size = some g
      ∧ (x2 + y2 * size ∈ (deref g._cells (x + y * size))._adjacentCells
          ↔ Grid.distance x y x2 y2 = 1)
      ∧ (Grid.distance x y x2 y2 = 1 →
          (deref g._cells (x + y * size))._adjacentCells.count (x2 + y2 * size) = 1)
      ∧ x + y * size ∉ (deref g._cells (x + y * size))._adjacentCells
      ∧ (x2 + y2 * size ∈ (deref g._cells (x + y * size))._adjacentCells
          ↔ x + y * size ∈ (deref g._cells (x2 + y2 * size))._adjacentCells) := by
  refine ⟨_, Grid.ctor_eq size hn, ?_⟩
  simp only [Grid.ctor_adjacent size x y hx hy, Grid.ctor_adjacent size x2 y2 hx2 hy2]
  have hmem := Grid.mem_adjacencyOf size x y x2 y2 hx hy hx2 hy2
  have hsymm := Grid.mem_adjacencyOf size x2 y2 x y hx2 hy2 hx hy
  have hself := Grid.mem_adjacencyOf size x y x y hx hy hx hy
  have hd : Grid.distance x2 y2 x y = 1 ↔ Grid.distance x y x2 y2 = 1 := by
    rw [Grid.distance_eq_one_iff, Grid.distance_eq_one_iff]; omega
  have hd0 : Grid.distance x y x y ≠ 1 := by
    rw [ne_eq, Grid.distance_eq_one_iff]; omega
  refine ⟨hmem, ?_, ?_, ?_⟩
  · intro h
    exact List.count_eq_one_of_mem (Grid.nodup_adjacencyOf size x y hx hy) (hmem.mpr h)
  · rw [hself]; exact hd0
  · rw [hmem, hsymm, hd]

set_option maxRecDepth 100000 in
/-- C7 on the 3×3 grid, for the cells `(0, 1)` and `(1, 2)`. -/
theorem moore_adjacency_witness :
    ∃ g : Grid, Grid.ctor 3 = some g
      ∧ (1 + 2 * 3 ∈ (deref g._cells (0 + 1 * 3))._adjacentCells
          ↔ Grid.distance 0 1 1 2 = 1)
      ∧ (Grid.distance 0 1 1 2 = 1 →
          (deref g._cells (0 + 1 * 3))._adjacentCells.count (1 + 2 * 3) = 1)
      ∧ 0 + 1 * 3 ∉ (deref g._cells (0 + 1 * 3))._adjacentCells
      ∧ (1 + 2 * 3 ∈ (deref g._cells (0 + 1 * 3))._adjacentCells
          ↔ 0 + 1 * 3 ∈ (deref g._cells (1 + 2 * 3))._adjacentCells) :=
  moore_adjacency 3 0 1 1 2 (by decide) (by decide) (by decide) (by decide) (by decide)

/-! ## Staged transitions are reset -/

theorem Grid.link_state (cells : List Cell) (k t : Int) (cells2 : List Cell)
    (h : Grid.link cells k t = some cells2) :
    cells2.map Cell.state = cells.map Cell.state := by
  unfold Grid.link vectorAt at h
  split at h
  · rename_i c1 c hc1 hc
    simp only [Option.some.injEq] at h
    subst h
    rw [List.map_set]
    apply List.ext_getElem?
    intro j
    rw [List.getElem?_set']
    split
    · rename_i hj
      subst hj
      rw [List.getElem?_map, hc]
      rfl
    · rfl
  · simp at h

theorem Grid.linkIf_state (p : Prop) [Decidable p] (cells : List Cell) (k t : Int)
    (cells2 : List Cell) (h : (if p then Grid.link cells k t else some cells) = some cells2) :
    cells2.map Cell.state = cells.map Cell.state := by
  split at h
  · exact Grid.link_state _ _ _ _ h
  · simp only [Option.some.injEq] at h
    rw [h]

/-- The adjacency construction touches neither the staged transition nor the
remaining life of any cell. -/
theorem Grid.linkCell_state (size y x : Nat) (st st2 : List Cell × Int)
    (h : Grid.linkCell size y x st = some st2) :
    st2.1.map Cell.state = st.1.map Cell.state := by
  unfold Grid.linkCell at h
  simp only [Option.bind_eq_some] at h
  obtain ⟨c3, h3, c6, h6, c7, h7, c8, h8, h9⟩ := h
  simp only [Option.some.injEq] at h9
  subst h9
  have e3 : c3.map Cell.state = st.1.map Cell.state := by
    split at h3
    · simp only [Option.bind_eq_some] at h3
      obtain ⟨c1, h1, c2, h2, h3⟩ := h3
      rw [Grid.linkIf_state _ _ _ _ _ h3, Grid.linkIf_state _ _ _ _ _ h2,
        Grid.link_state _ _ _ _ h1]
    · simp only [Option.some.injEq] at h3
      rw [h3]
  have e6 : c6.map Cell.state = c3.map Cell.state := by
    split at h6
    · simp only [Option.bind_eq_some] at h6
      obtain ⟨c4, h4, c5, h5, h6⟩ := h6
      rw [Grid.linkIf_state _ _ _ _ _ h6, Grid.linkIf_state _ _ _ _ _ h5,
        Grid.link_state _ _ _ _ h4]
    · simp only [Option.some.injEq] at h6
      rw [h6]
  rw [Grid.linkIf_state _ _ _ _ _ h8, Grid.linkIf_state _ _ _ _ _ h7, e6, e3]

theorem List.foldlM_option_preserves {α β : Type} (P : β → Prop) (f : β → α → Option β)
    (hf : ∀ b a b2, P b → f b a = some b2 → P b2) (l : List α) (b b2 : β)
    (hb : P b) (h : l.foldlM f b = some b2) : P b2 := by
  induction l generalizing b with
  | nil =>
    simp only [List.foldlM_nil, pure, Option.some.injEq] at h
    rw [← h]; exact hb
  | cons a l ih =>
    rw [List.foldlM_cons] at h
    cases h1 : f b a with
    | none => rw [h1] at h; exact absurd h (by simp)
    | some b1 =>
      rw [h1] at h
      exact ih b1 (hf b a b1 hb h1) h

/-- Whatever the size, a grid that the constructor returns has `size * size`
cells, all dead and with nothing staged. -/
theorem Grid.ctor_state (size : Nat) (g : Grid) (h : Grid.ctor size = some g) :
    g._cells.map Cell.state = List.replicate (size * size) (NextStatus.Same, 0) := by
  unfold Grid.ctor at h
  simp only [Option.map_eq_some'] at h
  obtain ⟨st, hst, hg⟩ := h
  subst hg
  unfold Grid.linkAll at hst
  have key := List.foldlM_option_preserves
    (fun st : List Cell × Int => st.1.map Cell.state = (Grid.allocate size).map Cell.state)
    (fun st y_it =>
      (List.range size).foldlM (fun st x_it => Grid.linkCell size y_it x_it st) st)
    (by
      intro b y b2 hb hrow
      exact List.foldlM_option_preserves
        (fun st : List Cell × Int => st.1.map Cell.state = (Grid.allocate size).map Cell.state)
        (fun st x_it => Grid.linkCell size y x_it st)
        (by
          intro b x b2 hb hcell
          rw [Grid.linkCell_state size y x b b2 hcell]
          exact hb)
        _ b b2 hb hrow)
    _ _ st rfl hst
  simp only at key
  rw [key, Grid.allocate_eq, List.map_replicate]
  rfl

theorem AllSame_of_state (cells : List Cell) (n : Nat)
    (h : cells.map Cell.state = List.replicate n (NextStatus.Same, 0)) : AllSame cells := by
  intro c hc
  have hm : Cell.state c ∈ cells.map Cell.state := List.mem_map_of_mem _ hc
  rw [h] at hm
  have := (List.mem_replicate.mp hm).2
  exact congrArg Prod.fst this

theorem Cell.Born_status (c : Cell) (r : RNG) : (c.Born r).1._nextStatus = c._nextStatus := rfl

theorem Cell.Born_adjacent (c : Cell) (r : RNG) :
    (c.Born r).1._adjacentCells = c._adjacentCells := rfl

theorem Grid.bornAt_allSame (st : Grid × RNG) (p : Nat) (h : AllSame st.1._cells) :
    AllSame (Grid.bornAt st p).1._cells := by
  unfold Grid.bornAt
  split
  · rename_i c hc
    intro c2 hc2
    rcases List.mem_or_eq_of_mem_set hc2 with h2 | h2
    · exact h c2 h2
    · rw [h2, Cell.Born_status]
      exact h c (List.getElem?_mem hc)
  · exact h

theorem List.foldl_preserves {α β : Type} (P : β → Prop) (f : β → α → β)
    (hf : ∀ b a, P b → P (f b a)) (l : List α) (b : β) (hb : P b) : P (l.foldl f b) := by
  induction l generalizing b with
  | nil => exact hb
  | cons a l ih => exact ih _ (hf b a hb)

theorem Type1Cell_allSame (st : Grid × RNG) (cell : Nat) (h : AllSame st.1._cells) :
    AllSame ( Type1Cell_initialize st cell).1._cells :=
  List.foldl_preserves (fun s : Grid × RNG => AllSame s.1._cells) _
    (fun b a hb => Grid.bornAt_allSame b a hb) _ _ (Grid.bornAt_allSame st cell h)

theorem Type2Cell_allSame (st : Grid × RNG) (cell : Nat) (h : AllSame st.1._cells) :
    AllSame ( Type2Cell_initialize st cell).1._cells :=
  List.foldl_preserves (fun s : Grid × RNG => AllSame s.1._cells) _
    (fun b a hb => Type1Cell_allSame _ a (Grid.bornAt_allSame b a hb)) _ _
    (Grid.bornAt_allSame st cell h)

theorem Type3Cell_allSame (st : Grid × RNG) (cell : Nat) (h : AllSame st.1._cells) :
    AllSame ( Type3Cell_initialize st cell).1._cells :=
  List.foldl_preserves (fun s : Grid × RNG => AllSame s.1._cells) _
    (fun b a hb => Type2Cell_allSame _ a (Grid.bornAt_allSame b a hb)) _ _
    (Grid.bornAt_allSame st cell h)

/-- C8. `Cell::ApplyStatus` leaves the cell's staged transition equal to
`Same` whatever it was before, and every cell has `Same` staged in every state
reachable from a freshly constructed grid (of any size) by any sequence of
`Grid::Behave`, `Type1Cell_initialize`, `Type2Cell_initialize` and
`Type3Cell_initialize` calls. -/
theorem transition_reset :
    (∀ (c : Cell) (r : RNG), (c.ApplyStatus r).1._nextStatus = NextStatus.Same)
      ∧ ∀ (size : Nat) (st : Grid × RNG), Reachable size st → AllSame st.1._cells := by
  refine ⟨Cell.ApplyStatus_status, ?_⟩
  intro size st h
  induction h with
  | fresh g r hg => exact AllSame_of_state _ _ (Grid.ctor_state size g hg)
  | behave st _ _ => exact Grid.Behave_allSame _ _
  | type1 st cell _ ih => exact Type1Cell_allSame st cell ih
  | type2 st cell _ ih => exact Type2Cell_allSame st cell ih
  | type3 st cell _ ih => exact Type3Cell_allSame st cell ih

/-- C8 on a concrete run: the 3×3 grid is constructed, seeded at its centre
with `Type3Cell_initialize`, advanced by one generation and seeded again with
`Type1Cell_initialize`. -/
theorem transition_reset_witness :
    AllSame ( Type1Cell_initialize
      (( Type3Cell_initialize
          ({ _cells := Grid.linkedUpTo 3 (3 * 3), _size := (3, 3) }, RNG.const 5) 4).1.Behave
        ( Type3Cell_initialize
          ({ _cells := Grid.linkedUpTo 3 (3 * 3), _size := (3, 3) }, RNG.const 5) 4).2) 0).1._cells :=
  transition_reset.2 3 _
    (Reachable.type1 _ 0 (Reachable.behave _ (Reachable.type3 _ 4
      (Reachable.fresh _ (RNG.const 5) (Grid.ctor_eq 3 (by decide))))))

/-! ## Seeding stamps -/

theorem Grid.bornAt_length (st : Grid × RNG) (p : Nat) :
    (Grid.bornAt st p).1._cells.length = st.1._cells.length := by
  unfold Grid.bornAt
  split
  · simp
  · rfl

theorem Grid.bornAt_distribution (st : Grid × RNG) (p : Nat) :
    (Grid.bornAt st p).2.distribution = st.2.distribution := by
  unfold Grid.bornAt
  split <;> rfl

/-- `Born` through a pointer rewrites the remaining life of the cell pointed
to, and nothing else. -/
theorem Grid.bornAt_deref (st : Grid × RNG) (p q : Nat) :
    deref (Grid.bornAt st p).1._cells q =
      if q = p ∧ p < st.1._cells.length then
        { deref st.1._cells q with
          _remainingCyclesToLive := toSizeT (st.2.distribution st.2.generator) }
      else deref st.1._cells q := by
  unfold Grid.bornAt
  split
  · rename_i c hc
    have hp : p < st.1._cells.length := (List.getElem?_eq_some.mp hc).1
    by_cases hq : q = p
    · subst hq
      rw [if_pos ⟨rfl, hp⟩, deref_of_getElem? _ _ _ hc]
      unfold deref
      rw [List.getD_eq_getElem?_getD, List.getElem?_set_self hp]
      rfl
    · rw [if_neg (fun h => hq h.1)]
      unfold deref
      rw [List.getD_eq_getElem?_getD, List.getD_eq_getElem?_getD,
        List.getElem?_set_ne (fun h => hq h.symm)]
  · rename_i hc
    have hp : st.1._cells.length ≤ p := List.getElem?_eq_none_iff.mp hc
    rw [if_neg (fun h => by omega)]

/-- A run of `Born` calls through the pointers of `l`, for a generator that
always returns `v`: the cells pointed to get the life `v`, the others are
untouched. -/
theorem Grid.foldl_bornAt (l : List Nat) (st : Grid × RNG) (v : Int)
    (hr : ∀ n, st.2.distribution n = v) :
    (l.foldl (fun s p => Grid.bornAt s p) st).1._cells.length = st.1._cells.length
      ∧ (∀ n, (l.foldl (fun s p => Grid.bornAt s p) st).2.distribution n = v)
      ∧ ∀ q, deref (l.foldl (fun s p => Grid.bornAt s p) st).1._cells q =
          if q ∈ l ∧ q < st.1._cells.length then
            { deref st.1._cells q with _remainingCyclesToLive := toSizeT v }
          else deref st.1._cells q := by
  induction l generalizing st with
  | nil => exact ⟨rfl, hr, fun q => by simp⟩
  | cons p l ih =>
    have hr1 : ∀ n, (Grid.bornAt st p).2.distribution n = v := by
      intro n; rw [Grid.bornAt_distribution]; exact hr n
    obtain ⟨h1, h2, h3⟩ := ih (Grid.bornAt st p) hr1
    rw [List.foldl_cons]
    refine ⟨by rw [h1, Grid.bornAt_length], h2, ?_⟩
    intro q
    rw [h3 q, Grid.bornAt_length, Grid.bornAt_deref, hr]
    by_cases hql : q ∈ l <;> by_cases hqp : q = p <;>
      by_cases hlen : q < st.1._cells.length <;>
      simp [hql, hqp, hlen]
    all_goals (subst hqp; simp [hlen])

/-- What `Type1Cell_initialize` does to the cell stored at index `q`, for a
generator that always returns `v`. -/
theorem Type1Cell_deref (st : Grid × RNG) (v : Int) (cell q : Nat)
    (hr : ∀ n, st.2.distribution n = v) :
    deref ( Type1Cell_initialize st cell).1._cells q =
      if (q = cell ∨ q ∈ (deref st.1._cells cell)._adjacentCells) ∧ q < st.1._cells.length then
        { deref st.1._cells q with _remainingCyclesToLive := toSizeT v }
      else deref st.1._cells q := by
  have hr1 : ∀ n, (Grid.bornAt st cell).2.distribution n = v := by
    intro n; rw [Grid.bornAt_distribution]; exact hr n
  have hadj : (deref (Grid.bornAt st cell).1._cells cell)._adjacentCells
      = (deref st.1._cells cell)._adjacentCells := by
    rw [Grid.bornAt_deref]
    split <;> rfl
  unfold Type1Cell_initialize
  rw [(Grid.foldl_bornAt _ (Grid.bornAt st cell) v hr1).2.2 q, hadj, Grid.bornAt_length,
    Grid.bornAt_deref, hr]
  by_cases hql : q ∈ (deref st.1._cells cell)._adjacentCells <;> by_cases hqp : q = cell <;>
    by_cases hlen : q < st.1._cells.length <;>
    simp [hql, hqp, hlen]
  all_goals (subst hqp; simp [hlen])

set_option maxRecDepth 1000000 in
/-- C9. For every grid, every target cell (index `cell`) and a generator that
always returns `v` with `2 ≤ v ≤ 10`: after `Type1Cell_initialize` the target
and every cell of its adjacency list have remaining life `v`, and every other
cell keeps its remaining life and its staged transition. Scenario A: on the
all-dead 5×5 grid that the constructor builds, with the target `(2, 2)` (index
12) and `v = 5`, the centre and its 8 neighbours have remaining life 5 and the
other 16 cells are dead. -/
theorem seed_depth1_stamp (g : Grid) (r : RNG) (v : Int) (cell : Nat)
    (hv : 2 ≤ v ∧ v ≤ 10) (hr : ∀ n, r.distribution n = v) (hc : cell < g._cells.length) :
    (((lifeOf ( Type1Cell_initialize (g, r) cell).1._cells cell : Nat) : Int) = v
      ∧ (∀ p ∈ (deref g._cells cell)._adjacentCells, p < g._cells.length →
          ((lifeOf ( Type1Cell_initialize (g, r) cell).1._cells p : Nat) : Int) = v)
      ∧ ∀ q, q ≠ cell → q ∉ (deref g._cells cell)._adjacentCells →
          lifeOf ( Type1Cell_initialize (g, r) cell).1._cells q = lifeOf g._cells q
            ∧ (deref ( Type1Cell_initialize (g, r) cell).1._cells q)._nextStatus
                = (deref g._cells q)._nextStatus)
      ∧ (Grid.ctor 5).map
          (fun g5 => ( Type1Cell_initialize (g5, RNG.const 5) 12).1._cells.map
            fun c => c._remainingCyclesToLive)
        = some [0, 0, 0, 0, 0,
                0, 5, 5, 5, 0,
                0, 5, 5, 5, 0,
                0, 5, 5, 5, 0,
                0, 0, 0, 0, 0] := by
  have hconv : ((toSizeT v : Nat) : Int) = v := by
    unfold toSizeT; omega
  have key := fun q => Type1Cell_deref (g, r) v cell q hr
  refine ⟨⟨?_, ?_, ?_⟩, by decide⟩
  · unfold lifeOf
    rw [key cell, if_pos ⟨Or.inl rfl, hc⟩]
    exact hconv
  · intro p hp hlen
    unfold lifeOf
    rw [key p, if_pos ⟨Or.inr hp, hlen⟩]
    exact hconv
  · intro q hq hqa
    unfold lifeOf
    rw [key q, if_neg (fun h => h.1.elim hq hqa)]
    exact ⟨rfl, rfl⟩

set_option maxRecDepth 1000000 in
/-- C9 on the 3×3 grid with lives `0 5 0 / 5 0 0 / 0 5 0`, seeded at the
corner of index 0 with a generator that always returns 9. -/
theorem seed_depth1_stamp_witness :
    ((lifeOf ( Type1Cell_initialize
        (Grid.ofLives 3 [0, 5, 0, 5, 0, 0, 0, 5, 0], RNG.const 9) 0).1._cells 0 : Nat) : Int) = 9
      ∧ lifeOf ( Type1Cell_initialize
          (Grid.ofLives 3 [0, 5, 0, 5, 0, 0, 0, 5, 0], RNG.const 9) 0).1._cells 7
        = lifeOf (Grid.ofLives 3 [0, 5, 0, 5, 0, 0, 0, 5, 0])._cells 7 :=
  ⟨(seed_depth1_stamp (Grid.ofLives 3 [0, 5, 0, 5, 0, 0, 0, 5, 0]) (RNG.const 9) 9 0
      (by decide) (fun _ => rfl) (by decide)).1.1,
    ((seed_depth1_stamp (Grid.ofLives 3 [0, 5, 0, 5, 0, 0, 0, 5, 0]) (RNG.const 9) 9 0
      (by decide) (fun _ => rfl) (by decide)).1.2.2 7 (by decide) (by decide)).1⟩

/-! ## Scenario B -/

set_option maxRecDepth 1000000 in
/-- C10. On the 3×3 grid (index `x + 3 * y`) in which the cells `(1, 0)`,
`(0, 1)` and `(1, 2)` have remaining life 5, all other cells are dead and
nothing is staged: after one `Grid::Behave`, for every generator with draws in
`[2, 10]`, the centre `(1, 1)` is alive and each of the three cells has
remaining life exactly 4. -/
theorem scenario_B (r : RNG) (hr : r.InRange) :
    (Grid.ofLives 3 [0, 5, 0, 5, 0, 0, 0, 5, 0]).IsStateOf 3
      ∧ AllSame (Grid.ofLives 3 [0, 5, 0, 5, 0, 0, 0, 5, 0])._cells
      ∧ (Grid.ofLives 3 [0, 5, 0, 5, 0, 0, 0, 5, 0])._cells.map
          (fun c => c._remainingCyclesToLive) = [0, 5, 0, 5, 0, 0, 0, 5, 0]
      ∧ 0 < lifeOf ((Grid.ofLives 3 [0, 5, 0, 5, 0, 0, 0, 5, 0]).Behave r).1._cells (1 + 3 * 1)
      ∧ lifeOf ((Grid.ofLives 3 [0, 5, 0, 5, 0, 0, 0, 5, 0]).Behave r).1._cells (1 + 3 * 0) = 4
      ∧ lifeOf ((Grid.ofLives 3 [0, 5, 0, 5, 0, 0, 0, 5, 0]).Behave r).1._cells (0 + 3 * 1) = 4
      ∧ lifeOf ((Grid.ofLives 3 [0, 5, 0, 5, 0, 0, 0, 5, 0]).Behave r).1._cells (1 + 3 * 2) = 4 := by
  have hsame : AllSame (Grid.ofLives 3 [0, 5, 0, 5, 0, 0, 0, 5, 0])._cells := by decide
  refine ⟨by decide, hsame, by decide, ?_, ?_, ?_, ?_⟩
  · exact (Grid.Behave_born _ r 4 hr (by decide) (by decide) (by decide)).1
  · rw [Grid.Behave_lifeOf_alive _ r 1 (by decide) (AllSame_deref _ hsame 1) (by decide)]
    decide
  · rw [Grid.Behave_lifeOf_alive _ r 3 (by decide) (AllSame_deref _ hsame 3) (by decide)]
    decide
  · rw [Grid.Behave_lifeOf_alive _ r 7 (by decide) (AllSame_deref _ hsame 7) (by decide)]
    decide

set_option maxRecDepth 1000000 in
/-- C10 for the generator that always returns 2. -/
theorem scenario_B_witness :
    0 < lifeOf ((Grid.ofLives 3 [0, 5, 0, 5, 0, 0, 0, 5, 0]).Behave (RNG.const 2)).1._cells (1 + 3 * 1)
      ∧ lifeOf ((Grid.ofLives 3 [0, 5, 0, 5, 0, 0, 0, 5, 0]).Behave (RNG.const 2)).1._cells (1 + 3 * 0)
          = 4 :=
  ⟨(scenario_B (RNG.const 2) (RNG.const_inRange 2 (by decide))).2.2.2.1,
    (scenario_B (RNG.const 2) (RNG.const_inRange 2 (by decide))).2.2.2.2.1⟩

/-! ## Reseeding -/

/-- `Type1Cell_initialize` leaves every adjacency list as it is. -/
theorem Type1Cell_adjacent (st : Grid × RNG) (v : Int) (cell q : Nat)
    (hr : ∀ n, st.2.distribution n = v) :
    (deref ( Type1Cell_initialize st cell).1._cells q)._adjacentCells
      = (deref st.1._cells q)._adjacentCells := by
  rw [Type1Cell_deref st v cell q hr]
  split <;> rfl

theorem Type1Cell_length (st : Grid × RNG) (cell : Nat) :
    ( Type1Cell_initialize st cell).1._cells.length = st.1._cells.length := by
  unfold Type1Cell_initialize
  refine List.foldl_preserves
    (fun s : Grid × RNG => s.1._cells.length = st.1._cells.length) _ ?_ _ _
    (Grid.bornAt_length st cell)
  intro b a hb
  rw [Grid.bornAt_length]
  exact hb

/-- C11. `Cell::Born` stores the fresh draw whatever the previous remaining
life. Hence, for every grid, every two targets `c1`, `c2` and constants `v1`,
`v2` in `[2, 10]` (equal or not): after `Type1Cell_initialize` on `c1` with a
generator returning `v1`, followed by `Type1Cell_initialize` on `c2` with a
generator returning `v2`, every cell of `c2` and its adjacency list has
remaining life `v2`, also when the first call touched it, and every cell of
`c1` and its adjacency list that the second call does not touch has remaining
life `v1`. -/
theorem reseed_overwrite (g : Grid) (r1 r2 : RNG) (v1 v2 : Int) (c1 c2 : Nat)
    (hv1 : 2 ≤ v1 ∧ v1 ≤ 10) (hv2 : 2 ≤ v2 ∧ v2 ≤ 10)
    (hr1 : ∀ n, r1.distribution n = v1) (hr2 : ∀ n, r2.distribution n = v2) :
    (∀ (c : Cell) (r : RNG),
        (c.Born r).1._remainingCyclesToLive = toSizeT (r.distribution r.generator))
      ∧ (∀ q, q = c2 ∨ q ∈ (deref g._cells c2)._adjacentCells → q < g._cells.length →
          ((lifeOf ( Type1Cell_initialize
            (( Type1Cell_initialize (g, r1) c1).1, r2) c2).1._cells q : Nat) : Int) = v2)
      ∧ ∀ q, q = c1 ∨ q ∈ (deref g._cells c1)._adjacentCells →
          ¬ (q = c2 ∨ q ∈ (deref g._cells c2)._adjacentCells) → q < g._cells.length →
          ((lifeOf ( Type1Cell_initialize
            (( Type1Cell_initialize (g, r1) c1).1, r2) c2).1._cells q : Nat) : Int) = v1 := by
  have hconv1 : ((toSizeT v1 : Nat) : Int) = v1 := by unfold toSizeT; omega
  have hconv2 : ((toSizeT v2 : Nat) : Int) = v2 := by unfold toSizeT; omega
  have hadj := Type1Cell_adjacent (g, r1) v1 c1 c2 hr1
  have hlen := Type1Cell_length (g, r1) c1
  have key2 := fun q =>
    Type1Cell_deref (( Type1Cell_initialize (g, r1) c1).1, r2) v2 c2 q hr2
  have key1 := fun q => Type1Cell_deref (g, r1) v1 c1 q hr1
  simp only [hadj, hlen] at key2
  refine ⟨fun c r => rfl, ?_, ?_⟩
  · intro q hq hql
    unfold lifeOf
    rw [key2 q, if_pos ⟨hq, hql⟩]
    exact hconv2
  · intro q hq hnq hql
    unfold lifeOf
    rw [key2 q, if_neg (fun h => hnq h.1), key1 q, if_pos ⟨hq, hql⟩]
    exact hconv1

set_option maxRecDepth 1000000 in
/-- C11 on the all-dead 3×3 grid: the corner 0 is seeded with 4, then the
corner 2 with 9; cell 1 is touched by both calls and ends at 9, cell 0 only by
the first and stays at 4. -/
theorem reseed_overwrite_witness :
    ((lifeOf ( Type1Cell_initialize
        (( Type1Cell_initialize (Grid.ofLives 3 [0, 0, 0, 0, 0, 0, 0, 0, 0], RNG.const 4) 0).1,
          RNG.const 9) 2).1._cells 1 : Nat) : Int) = 9
      ∧ ((lifeOf ( Type1Cell_initialize
        (( Type1Cell_initialize (Grid.ofLives 3 [0, 0, 0, 0, 0, 0, 0, 0, 0], RNG.const 4) 0).1,
          RNG.const 9) 2).1._cells 0 : Nat) : Int) = 4 :=
  ⟨(reseed_overwrite (Grid.ofLives 3 [0, 0, 0, 0, 0, 0, 0, 0, 0]) (RNG.const 4) (RNG.const 9)
      4 9 0 2 (by decide) (by decide) (fun _ => rfl) (fun _ => rfl)).2.1 1
      (by decide) (by decide),
    (reseed_overwrite (Grid.ofLives 3 [0, 0, 0, 0, 0, 0, 0, 0, 0]) (RNG.const 4) (RNG.const 9)
      4 9 0 2 (by decide) (by decide) (fun _ => rfl) (fun _ => rfl)).2.2 0
      (by decide) (by decide) (by decide)⟩

/-! ## Extinction -/

theorem alivedCells_eq_zero_iff (g : Grid) :
    alivedCells g = 0 ↔ ∀ cell ∈ g._cells, cell._remainingCyclesToLive = 0 := by
  unfold alivedCells
  rw [List.countP_eq_zero]
  simp

/-- C14. For every grid state, the alive-cell count that the host computes
(cells with remaining life `≠ 0`) is 0 if and only if every cell's remaining
life is 0, and it equals the number of cells with remaining life `> 0`. -/
theorem extinction_detection (g : Grid) :
    (alivedCells g = 0 ↔ ∀ cell ∈ g._cells, cell._remainingCyclesToLive = 0)
      ∧ alivedCells g = g._cells.countP (fun cell => decide (0 < cell._remainingCyclesToLive)) := by
  refine ⟨alivedCells_eq_zero_iff g, ?_⟩
  · unfold alivedCells
    apply List.countP_congr
    intro c _
    simp only [decide_eq_true_eq]
    omega

/-- In a vector of dead cells with nothing staged, `Cell::Behave` changes
nothing. -/
theorem Cell.Behave_of_dead (cells : List Cell) (c : Cell)
    (hall : ∀ p, lifeOf cells p = 0) (hdead : c._remainingCyclesToLive = 0) :
    Cell.Behave cells c = c := by
  unfold Cell.Behave
  rw [if_pos hdead]
  have h0 : c._adjacentCells.countP
      (fun p => decide ((deref cells p)._remainingCyclesToLive > Config.MinCycleToLiveToReproduce))
      = 0 := by
    rw [List.countP_eq_zero]
    intro p _
    have := hall p
    unfold lifeOf at this
    simp [this, Config.MinCycleToLiveToReproduce]
  simp only [h0, Config.MinParentsToBorn]
  rfl

theorem lifeOf_of_all_dead (cells : List Cell)
    (h : ∀ c ∈ cells, c._remainingCyclesToLive = 0) (p : Nat) : lifeOf cells p = 0 := by
  rw [lifeOf_eq]
  cases hp : cells[p]? with
  | none => rfl
  | some c => exact h c (List.getElem?_mem hp)

theorem Grid.behaveLoop_of_dead (done todo : List Cell)
    (h : ∀ c ∈ done ++ todo, c._remainingCyclesToLive = 0) :
    Grid.behaveLoop done todo = done ++ todo := by
  induction todo generalizing done with
  | nil => simp [Grid.behaveLoop]
  | cons c todo ih =>
    have hc : Cell.Behave (done ++ c :: todo) c = c :=
      Cell.Behave_of_dead _ c (lifeOf_of_all_dead _ h) (h c (by simp))
    rw [Grid.behaveLoop, hc, ih (done ++ [c]) (by simpa using h)]
    simp

theorem Grid.applyLoop_of_same (cells : List Cell) (r : RNG) (h : AllSame cells) :
    Grid.applyLoop cells r = (cells, r) := by
  induction cells with
  | nil => rfl
  | cons c cells ih =>
    have hc := Cell.ApplyStatus_same c r (h c (by simp))
    have ht := ih (fun c2 hc2 => h c2 (List.mem_cons_of_mem _ hc2))
    rw [Grid.applyLoop, hc, ht]

/-- A generation of an extinct grid with nothing staged is the identity. -/
theorem Grid.Behave_extinct (g : Grid) (r : RNG)
    (hdead : ∀ c ∈ g._cells, c._remainingCyclesToLive = 0) (hsame : AllSame g._cells) :
    g.Behave r = (g, r) := by
  unfold Grid.Behave
  rw [Grid.behaveLoop_of_dead [] g._cells (by simpa using hdead), List.nil_append,
    Grid.applyLoop_of_same _ r hsame]

/-- C20. In a grid in which every cell is dead and nothing is staged, one
`Grid::Behave` draws no random value and leaves every cell dead with nothing
staged; hence the alive count is 0 after every number of further generations. -/
theorem extinction_absorbing (g : Grid) (r : RNG)
    (hdead : ∀ c ∈ g._cells, c._remainingCyclesToLive = 0) (hsame : AllSame g._cells) :
    (g.Behave r).2 = r
      ∧ (∀ c ∈ (g.Behave r).1._cells, c._remainingCyclesToLive = 0)
      ∧ AllSame (g.Behave r).1._cells
      ∧ ∀ k, alivedCells (Grid.generations k (g, r)).1 = 0 := by
  have hb := Grid.Behave_extinct g r hdead hsame
  have hgen : ∀ k, Grid.generations k (g, r) = (g, r) := by
    intro k
    induction k with
    | zero => rfl
    | succ k ih => rw [Grid.generations, hb]; exact ih
  refine ⟨by rw [hb], by rw [hb]; exact hdead, by rw [hb]; exact hsame, ?_⟩
  intro k
  rw [hgen k]
  exact (alivedCells_eq_zero_iff g).mpr hdead

set_option maxRecDepth 1000000 in
/-- C20 on the all-dead 3×3 grid, after 7 generations. -/
theorem extinction_absorbing_witness :
    ((Grid.ofLives 3 [0, 0, 0, 0, 0, 0, 0, 0, 0]).Behave (RNG.const 5)).2.generator = 0
      ∧ alivedCells
          (Grid.generations 7 (Grid.ofLives 3 [0, 0, 0, 0, 0, 0, 0, 0, 0], RNG.const 5)).1 = 0 :=
  ⟨congrArg RNG.generator
      (extinction_absorbing (Grid.ofLives 3 [0, 0, 0, 0, 0, 0, 0, 0, 0]) (RNG.const 5)
        (by decide) (by decide)).1,
    (extinction_absorbing (Grid.ofLives 3 [0, 0, 0, 0, 0, 0, 0, 0, 0]) (RNG.const 5)
      (by decide) (by decide)).2.2.2 7⟩

/-! ## The exact birth criterion -/

/-- A dead cell with nothing staged that reads at most two mature neighbours
stays dead. -/
theorem Grid.Behave_not_born (g : Grid) (r : RNG) (i : Nat)
    (hi : i < g._cells.length) (hsame : AllSame g._cells) (hdead : lifeOf g._cells i = 0)
    (h : ¬ 2 < (deref g._cells i)._adjacentCells.countP
        (fun p => decide ((p < i ∧ 3 < lifeOf g._cells p) ∨ (i < p ∧ 2 < lifeOf g._cells p)))) :
    lifeOf (g.Behave r).1._cells i = 0 := by
  obtain ⟨r2, _, h2⟩ := Grid.Behave_lifeOf g r i hi
  have hst := Grid.staged_dead g._cells i hi hdead
  rw [if_neg h, AllSame_deref _ hsame i] at hst
  rw [h2, Cell.ApplyStatus_same _ r2 hst, Cell.Behave_life]
  unfold lifeOf at hdead
  omega

/-- C16. For every grid state with nothing staged, every generator with draws
in `[2, 10]` and every dead cell stored at index `i`: the cell is alive after
one `Grid::Behave` if and only if at least 3 of the entries `j` of its
adjacency list satisfy (`j < i` and the remaining life of `j` at the start is
above 3) or (`j > i` and the remaining life of `j` at the start is above 2). -/
theorem birth_criterion_exact (g : Grid) (r : RNG) (i : Nat)
    (hr : r.InRange) (hi : i < g._cells.length) (hsame : AllSame g._cells)
    (hdead : lifeOf g._cells i = 0) :
    0 < lifeOf (g.Behave r).1._cells i ↔
      3 ≤ (deref g._cells i)._adjacentCells.countP
        (fun j => decide ((j < i ∧ 3 < lifeOf g._cells j) ∨ (i < j ∧ 2 < lifeOf g._cells j))) := by
  constructor
  · intro h
    by_contra hc
    have := Grid.Behave_not_born g r i hi hsame hdead (by omega)
    omega
  · intro h
    exact (Grid.Behave_born g r i hr hi hdead (by omega)).1

set_option maxRecDepth 1000000 in
/-- C16 on the 3×3 grid with lives `0 3 0 / 4 0 0 / 0 3 3`: the centre reads
the mature neighbours 3, 7 and 8, but not 1, and is born. -/
theorem birth_criterion_exact_witness :
    0 < lifeOf ((Grid.ofLives 3 [0, 3, 0, 4, 0, 0, 0, 3, 3]).Behave (RNG.const 6)).1._cells 4 ↔
      3 ≤ (deref (Grid.ofLives 3 [0, 3, 0, 4, 0, 0, 0, 3, 3])._cells 4)._adjacentCells.countP
        (fun j => decide ((j < 4 ∧ 3 < lifeOf (Grid.ofLives 3 [0, 3, 0, 4, 0, 0, 0, 3, 3])._cells j)
          ∨ (4 < j ∧ 2 < lifeOf (Grid.ofLives 3 [0, 3, 0, 4, 0, 0, 0, 3, 3])._cells j))) :=
  birth_criterion_exact (Grid.ofLives 3 [0, 3, 0, 4, 0, 0, 0, 3, 3]) (RNG.const 6) 4
    (RNG.const_inRange 6 (by decide)) (by decide) (by decide) (by decide)

/-! ## Construction -/

set_option maxRecDepth 1000000 in
/-- C13, as stated, fails: the constructor called with size 0 does not fail,
it returns the grid without cells. -/
theorem construction_size_zero_succeeds :
    Grid.ctor 0 = some { _cells := [], _size := (0, 0) } := by
  decide

/-- C13, amended. For every size whose square is within the range of the
`int` counter `cellId` (size 0 included, for which the grid has no cells) the
constructor succeeds and yields exactly `size * size` cells, all dead and with
nothing staged. -/
theorem construction_yields_dead_cells (size : Nat) (hn : size * size < 2147483648) :
    ∃ g : Grid, Grid.ctor size = some g
      ∧ g._size = (size, size)
      ∧ g._cells.length = size * size
      ∧ ∀ c ∈ g._cells, c._remainingCyclesToLive = 0 ∧ c._nextStatus = NextStatus.Same := by
  refine ⟨_, Grid.ctor_eq size hn, rfl, Grid.linkedUpTo_length _ _, ?_⟩
  intro c hc
  have hst := Grid.ctor_state size _ (Grid.ctor_eq size hn)
  have hm : Cell.state c ∈ (Grid.linkedUpTo size (size * size)).map Cell.state :=
    List.mem_map_of_mem _ hc
  simp only at hst
  rw [hst] at hm
  have h2 := (List.mem_replicate.mp hm).2
  exact ⟨congrArg Prod.snd h2, congrArg Prod.fst h2⟩

set_option maxRecDepth 1000000 in
/-- C13, amended, for size 4. -/
theorem construction_yields_dead_cells_witness :
    ∃ g : Grid, Grid.ctor 4 = some g
      ∧ g._size = (4, 4)
      ∧ g._cells.length = 4 * 4
      ∧ ∀ c ∈ g._cells, c._remainingCyclesToLive = 0 ∧ c._nextStatus = NextStatus.Same :=
  construction_yields_dead_cells 4 (by decide)

set_option maxRecDepth 1000000 in
/-- C17, as stated, fails: in the grid of size 1 the adjacency list of the
only cell is empty, below the claimed minimum of 2 entries. -/
theorem neighbour_list_size_one_empty :
    (Grid.ctor 1).map (fun g => (deref g._cells 0)._adjacentCells.length) = some 0 := by
  decide

/-- C17, amended. For every size `≥ 2` (with `size * size` within the range
of the `int` counter `cellId`) and every cell of the grid that the constructor
builds, the adjacency list has between 3 and 8 entries, as the comment in the
source says, hence between 2 and 8; for size 1 the list of the only cell is
empty. -/
theorem neighbour_list_size (size x y : Nat) (hn : size * size < 2147483648)
    (hx : x < size) (hy : y < size) :
    ∃ g : Grid, Grid.ctor size = some g
      ∧ (2 ≤ size → 3 ≤ (deref g._cells (x + y * size))._adjacentCells.length
          ∧ (deref g._cells (x + y * size))._adjacentCells.length ≤ 8)
      ∧ (size = 1 → (deref g._cells (x + y * size))._adjacentCells.length = 0) := by
  refine ⟨_, Grid.ctor_eq size hn, ?_⟩
  simp only [Grid.ctor_adjacent size x y hx hy]
  have hlen := Grid.length_adjacencyOf size x y
  by_cases hy0 : y ≠ 0 <;> by_cases hy1 : y ≠ size - 1 <;>
    by_cases hx0 : x ≠ 0 <;> by_cases hx1 : x ≠ size - 1 <;>
    simp only [hy0, hy1, hx0, hx1, ne_eq, not_false_eq_true, if_true, if_false] at hlen <;>
    refine ⟨fun h => ?_, fun h => ?_⟩ <;> omega

set_option maxRecDepth 1000000 in
/-- C17, amended, on the grid of size 2 at the cell `(1, 0)`. -/
theorem neighbour_list_size_witness :
    ∃ g : Grid, Grid.ctor 2 = some g
      ∧ (2 ≤ 2 → 3 ≤ (deref g._cells (1 + 0 * 2))._adjacentCells.length
          ∧ (deref g._cells (1 + 0 * 2))._adjacentCells.length ≤ 8)
      ∧ (2 = 1 → (deref g._cells (1 + 0 * 2))._adjacentCells.length = 0) :=
  neighbour_list_size 2 1 0 (by decide) (by decide) (by decide)

/-- C18. For every size with `size * size` within the range of the `int`
counter `cellId`, the constructor returns a grid, that is, no `_cells.at(...)`
throws; and for every cell `(x, y)`, with `cellId = x + y * size`: the index
`cellId` itself is in range, and each of the offsets N, NE, NW, S, SE, SW, E,
W, computed with the mixed `int`/`size_t` arithmetic of the source and
converted to `size_t` by `at`, is under its guard the index of the intended
position `(x ± 1, y ± 1)` and is smaller than `size * size`. -/
theorem adjacency_in_bounds (size : Nat) (hn : size * size < 2147483648) :
    (∃ g : Grid, Grid.ctor size = some g)
      ∧ ∀ x y, x < size → y < size →
        (toSizeT ((x + y * size : Nat) : Int) = x + y * size ∧ x + y * size < size * size)
        ∧ (y ≠ 0 →
            toSizeT (toLongLong (sizeSub (toSizeT ((x + y * size : Nat) : Int)) size))
              = x + (y - 1) * size ∧ x + (y - 1) * size < size * size)
        ∧ (y ≠ 0 → x ≠ sizeSub size 1 →
            toSizeT (toLongLong (sizeAdd (sizeSub (toSizeT ((x + y * size : Nat) : Int)) size) 1))
              = (x + 1) + (y - 1) * size ∧ (x + 1) + (y - 1) * size < size * size)
        ∧ (y ≠ 0 → x ≠ 0 →
            toSizeT (toLongLong (sizeSub (sizeSub (toSizeT ((x + y * size : Nat) : Int)) size) 1))
              = (x - 1) + (y - 1) * size ∧ (x - 1) + (y - 1) * size < size * size)
        ∧ (y ≠ sizeSub size 1 →
            toSizeT (toLongLong (sizeAdd (toSizeT ((x + y * size : Nat) : Int)) size))
              = x + (y + 1) * size ∧ x + (y + 1) * size < size * size)
        ∧ (y ≠ sizeSub size 1 → x ≠ sizeSub size 1 →
            toSizeT (toLongLong (sizeAdd (sizeAdd (toSizeT ((x + y * size : Nat) : Int)) size) 1))
              = (x + 1) + (y + 1) * size ∧ (x + 1) + (y + 1) * size < size * size)
        ∧ (y ≠ sizeSub size 1 → x ≠ 0 →
            toSizeT (toLongLong (sizeSub (sizeAdd (toSizeT ((x + y * size : Nat) : Int)) size) 1))
              = (x - 1) + (y + 1) * size ∧ (x - 1) + (y + 1) * size < size * size)
        ∧ (x ≠ sizeSub size 1 →
            toSizeT (((x + y * size : Nat) : Int) + 1) = (x + 1) + y * size
              ∧ (x + 1) + y * size < size * size)
        ∧ (x ≠ 0 →
            toSizeT (((x + y * size : Nat) : Int) - 1) = (x - 1) + y * size
              ∧ (x - 1) + y * size < size * size) := by
  refine ⟨⟨_, Grid.ctor_eq size hn⟩, ?_⟩
  intro x y hx hy
  have hm1 : y * size + size ≤ size * size := by
    have : (y + 1) * size ≤ size * size := Nat.mul_le_mul_right size (by omega)
    rw [Nat.add_mul, Nat.one_mul] at this
    exact this
  have hs1 : sizeSub size 1 = size - 1 := sizeSub_eq size 1 (by omega) (by omega)
  have hup : (y + 1) * size = y * size + size := by rw [Nat.add_mul, Nat.one_mul]
  have hdown : y ≠ 0 → (y - 1) * size + size = y * size := by
    intro h
    have : (y - 1 + 1) * size = y * size := by rw [Nat.sub_add_cancel (by omega)]
    rw [Nat.add_mul, Nat.one_mul] at this
    exact this
  have hm3 : y ≠ size - 1 → y * size + size + size ≤ size * size := by
    intro h
    have : (y + 2) * size ≤ size * size := Nat.mul_le_mul_right size (by omega)
    rw [Nat.add_mul] at this
    omega
  rw [hs1, hup]
  generalize hA : y * size = A at *
  generalize hB : (y - 1) * size = B at *
  refine ⟨⟨toSizeT_natCast _ (by omega), by omega⟩, ?_, ?_, ?_, ?_, ?_, ?_, ?_, ?_⟩
  · intro h0
    have := hdown h0
    rw [Grid.index_N _ _ (by omega) (by omega)]
    omega
  · intro h0 h1
    have := hdown h0
    rw [Grid.index_NE _ _ (by omega) (by omega)]
    omega
  · intro h0 h1
    have := hdown h0
    rw [Grid.index_NW _ _ (by omega) (by omega)]
    omega
  · intro h0
    have := hm3 h0
    rw [Grid.index_S _ _ (by omega)]
    omega
  · intro h0 h1
    have := hm3 h0
    rw [Grid.index_SE _ _ (by omega)]
    omega
  · intro h0 h1
    have := hm3 h0
    rw [Grid.index_SW _ _ (by omega) (by omega)]
    omega
  · intro h1
    rw [Grid.index_E _ (by omega)]
    omega
  · intro h1
    rw [Grid.index_W _ (by omega) (by omega)]
    omega

set_option maxRecDepth 1000000 in
/-- C18 for size 3, at the centre cell: the offset NW is the index 0. -/
theorem adjacency_in_bounds_witness :
    (∃ g : Grid, Grid.ctor 3 = some g)
      ∧ toSizeT (toLongLong (sizeSub (sizeSub (toSizeT ((1 + 1 * 3 : Nat) : Int)) 3) 1))
          = (1 - 1) + (1 - 1) * 3 :=
  ⟨(adjacency_in_bounds 3 (by decide)).1,
    ((adjacency_in_bounds 3 (by decide)).2 1 1 (by decide) (by decide)).2.2.2.1
      (by decide) (by decide) |>.1⟩

/-! ## Screen coordinates -/

theorem staticInit_of_fits (v : Option Nat) (size : Nat) (hs : size ≠ 0)
    (h : v = none ∨ v = some (800 / size)) : staticInit v 800 size = some (800 / size) := by
  unfold staticInit
  rcases h with h | h
  · rw [h]
    simp [hs]
  · rw [h]

/-- `Grid::GetCellFromCoord` once both statics hold non-zero values `dx` and
`dy` (after their initialisation in this call, or from an earlier call): the
outcome of `at` on the flat index computed with `dx` and `dy`. -/
theorem Grid.GetCellFromCoord_eq (g : Grid) (statics : CellSizeStatics) (size dx dy px py : Nat)
    (hsize : g._size = (size, size))
    (hx : staticInit statics.cellSizeX 800 size = some dx)
    (hy : staticInit statics.cellSizeY 800 size = some dy)
    (hdx : dx ≠ 0) (hdy : dy ≠ 0) :
    g.GetCellFromCoord statics (px, py) =
      (match g._cells[sizeAdd (px / dx) (sizeMul (py / dy) size)]? with
        | some cell => Except.ok cell
        | none => Except.error Raised.out_of_range,
        { cellSizeX := some dx, cellSizeY := some dy }) := by
  unfold Grid.GetCellFromCoord vectorAt
  simp only [hsize, Config.ScreenSize, hx, hy]
  rw [if_neg (by simp [hdx, hdy])]
  all_goals rfl

theorem main_grid_length : main_grid._cells.length = 160 * 160 := by
  simp only [main_grid, Grid.linkedUpTo_length]

theorem main_grid_adjacent (x y : Nat) (hx : x < 160) (hy : y < 160) :
    (deref main_grid._cells (x + y * 160))._adjacentCells = Grid.adjacencyOf 160 x y := by
  simp only [main_grid]
  exact Grid.ctor_adjacent 160 x y hx hy

theorem second_grid_length : second_grid._cells.length = 80 * 80 := by
  simp only [second_grid, Grid.linkedUpTo_length]

theorem second_grid_adjacent (x y : Nat) (hx : x < 80) (hy : y < 80) :
    (deref second_grid._cells (x + y * 80))._adjacentCells = Grid.adjacencyOf 80 x y := by
  simp only [second_grid]
  exact Grid.ctor_adjacent 80 x y hx hy

/-- C19, as stated, fails for a grid that is not the first one looked up. After
one lookup on the program's 160×160 grid the statics hold 5 and 5; on the
80×80 grid that the constructor builds (10 pixels per cell) the lookup of the
in-range pixel `(10, 0)` then computes the index `10 / 5 = 2` and returns the
cell of column 2, not the cell of column `10 / (800 / 80) = 1`, and the lookup
of the in-range pixel `(799, 799)` computes the index 12879, beyond the 6400
cells, so that `at` throws. -/
theorem screen_to_grid_later_grid_fails :
    Grid.ctor 160 = some main_grid
      ∧ Grid.ctor 80 = some second_grid
      ∧ (main_grid.GetCellFromCoord {} (0, 0)).2 = { cellSizeX := some 5, cellSizeY := some 5 }
      ∧ (second_grid.GetCellFromCoord (main_grid.GetCellFromCoord {} (0, 0)).2 (10, 0)).1
          = Except.ok (deref second_grid._cells 2)
      ∧ deref second_grid._cells 2
          ≠ deref second_grid._cells (10 / (800 / 80) + (0 / (800 / 80)) * 80)
      ∧ (second_grid.GetCellFromCoord (main_grid.GetCellFromCoord {} (0, 0)).2 (799, 799)).1
          = Except.error Raised.out_of_range := by
  have h1 : (main_grid.GetCellFromCoord {} (0, 0)).2
      = { cellSizeX := some 5, cellSizeY := some 5 } := by
    rw [Grid.GetCellFromCoord_eq main_grid {} 160 5 5 0 0 rfl rfl rfl (by decide) (by decide)]
  refine ⟨Grid.ctor_eq 160 (by decide), Grid.ctor_eq 80 (by decide), h1, ?_, ?_, ?_⟩
  · rw [h1, Grid.GetCellFromCoord_eq second_grid { cellSizeX := some 5, cellSizeY := some 5 } 80 5 5 10 0 rfl rfl rfl (by decide) (by decide),
      show sizeAdd (10 / 5) (sizeMul (0 / 5) 80) = 2 by decide,
      getElem?_eq_deref _ _ (by rw [second_grid_length]; decide)]
  · intro h
    have h2 := congrArg (fun c => c._adjacentCells) h
    simp only at h2
    rw [show (2 : Nat) = 2 + 0 * 80 by decide, second_grid_adjacent 2 0 (by decide) (by decide),
      show 10 / (800 / 80) + (0 / (800 / 80)) * 80 = 1 + 0 * 80 by decide,
      second_grid_adjacent 1 0 (by decide) (by decide)] at h2
    revert h2
    decide
  · rw [h1,
      Grid.GetCellFromCoord_eq second_grid { cellSizeX := some 5, cellSizeY := some 5 } 80 5 5 799 799 rfl rfl rfl (by decide) (by decide),
      List.getElem?_eq_none (by rw [second_grid_length]; decide)]

/-- C19, amended. For every grid size `N ≥ 1` that divides the screen size
800, every grid with dimensions `N × N` and `N * N` cells, every state of the
statics in which each of them is uninitialised or holds `800 / N` (the grid is
the first one looked up in the process, or the earlier lookups had the same
cell size), and every pixel `(px, py)` with `px < 800` and `py < 800`: the
divisor `800 / N` is not zero, the column `px / (800 / N)` and the row
`py / (800 / N)` are smaller than `N`, the index
`px / (800 / N) + (py / (800 / N)) * N` is smaller than `N * N`,
`Grid::GetCellFromCoord` returns the cell stored at that index, and it leaves
both statics at `800 / N`. -/
theorem screen_to_grid_in_range (g : Grid) (statics : CellSizeStatics) (N px py : Nat)
    (hN : 1 ≤ N) (hdvd : N ∣ 800) (hsize : g._size = (N, N)) (hlen : g._cells.length = N * N)
    (hfits : statics.Fits (800 / N)) (hpx : px < 800) (hpy : py < 800) :
    800 / N ≠ 0
      ∧ px / (800 / N) < N ∧ py / (800 / N) < N
      ∧ px / (800 / N) + (py / (800 / N)) * N < N * N
      ∧ (g.GetCellFromCoord statics (px, py)).1
          = Except.ok (deref g._cells (px / (800 / N) + (py / (800 / N)) * N))
      ∧ (g.GetCellFromCoord statics (px, py)).2
          = { cellSizeX := some (800 / N), cellSizeY := some (800 / N) } := by
  have hinitx := staticInit_of_fits statics.cellSizeX N (by omega) hfits.1
  have hinity := staticInit_of_fits statics.cellSizeY N (by omega) hfits.2
  obtain ⟨d, hd⟩ := hdvd
  have hdiv : 800 / N = d := by
    rw [hd, Nat.mul_div_cancel_left d (by omega)]
  have hd0 : d ≠ 0 := by
    intro h
    rw [h, Nat.mul_zero] at hd
    omega
  have hN800 : N ≤ 800 := Nat.le_of_dvd (by decide) ⟨d, hd⟩
  have hcol : px / d < N := by
    apply Nat.div_lt_of_lt_mul
    rw [Nat.mul_comm, ← hd]
    exact hpx
  have hrow : py / d < N := by
    apply Nat.div_lt_of_lt_mul
    rw [Nat.mul_comm, ← hd]
    exact hpy
  have hrowN : py / d * N + N ≤ N * N := by
    have : (py / d + 1) * N ≤ N * N := Nat.mul_le_mul_right N (by omega)
    rw [Nat.add_mul, Nat.one_mul] at this
    exact this
  have hNN : N * N ≤ 640000 := by
    have : N * N ≤ 800 * 800 := Nat.mul_le_mul hN800 hN800
    omega
  have hidx : px / d + py / d * N < N * N := by omega
  have hmul : sizeMul (py / d) N = py / d * N := by
    unfold sizeMul
    exact Nat.mod_eq_of_lt (by omega)
  have hadd : sizeAdd (px / d) (py / d * N) = px / d + py / d * N :=
    sizeAdd_eq _ _ (by omega)
  rw [hdiv] at hinitx hinity ⊢
  rw [Grid.GetCellFromCoord_eq g statics N d d px py hsize hinitx hinity hd0 hd0, hmul, hadd,
    getElem?_eq_deref _ _ (by rw [hlen]; exact hidx)]
  exact ⟨hd0, hcol, hrow, hidx, rfl, rfl⟩

/-- C19, amended, on the program's grid of size 160 at the pixel `(799, 12)`,
with the statics not yet initialised. -/
theorem screen_to_grid_in_range_witness :
    800 / 160 ≠ 0
      ∧ 799 / (800 / 160) < 160 ∧ 12 / (800 / 160) < 160
      ∧ 799 / (800 / 160) + (12 / (800 / 160)) * 160 < 160 * 160
      ∧ (main_grid.GetCellFromCoord {} (799, 12)).1
          = Except.ok (deref main_grid._cells
              (799 / (800 / 160) + (12 / (800 / 160)) * 160))
      ∧ (main_grid.GetCellFromCoord {} (799, 12)).2
          = { cellSizeX := some (800 / 160), cellSizeY := some (800 / 160) } :=
  screen_to_grid_in_range main_grid {} 160 799 12 (by decide) (by decide) rfl main_grid_length
    ⟨Or.inl rfl, Or.inl rfl⟩ (by decide) (by decide)

/-- C12, as stated, fails on the program's 160×160 grid (the one the
constructor builds), in the first lookup of the process. At the pixel
`(0, 800)` the flat index is 25600 and `at` throws `std::out_of_range`, which
nothing catches; at the pixel `(800, 0)` the flat index is 160, so the call
returns the cell of column 0 in row 1, which is neither a failure nor the
nearest valid cell (column 159 of row 0, index 159): the two cells differ. -/
theorem screen_lookup_out_of_range_fails :
    Grid.ctor 160 = some main_grid
      ∧ (main_grid.GetCellFromCoord {} (0, 800)).1 = Except.error Raised.out_of_range
      ∧ (main_grid.GetCellFromCoord {} (800, 0)).1
          = Except.ok (deref main_grid._cells (0 + 1 * 160))
      ∧ deref main_grid._cells (0 + 1 * 160)
          ≠ deref main_grid._cells (min (800 / 5) 159 + min (0 / 5) 159 * 160) := by
  refine ⟨Grid.ctor_eq 160 (by decide), ?_, ?_, ?_⟩
  · rw [Grid.GetCellFromCoord_eq main_grid {} 160 5 5 0 800 rfl rfl rfl (by decide) (by decide),
      List.getElem?_eq_none (by rw [main_grid_length]; decide)]
  · rw [Grid.GetCellFromCoord_eq main_grid {} 160 5 5 800 0 rfl rfl rfl (by decide) (by decide),
      show sizeAdd (800 / 5) (sizeMul (0 / 5) 160) = 0 + 1 * 160 by decide,
      getElem?_eq_deref _ _ (by rw [main_grid_length]; decide)]
  · intro h
    have h2 := congrArg (fun c => c._adjacentCells.length) h
    simp only at h2
    rw [main_grid_adjacent 0 1 (by decide) (by decide),
      show min (800 / 5) 159 + min (0 / 5) 159 * 160 = 159 + 0 * 160 by decide,
      main_grid_adjacent 159 0 (by decide) (by decide)] at h2
    revert h2
    decide

/-- C12, amended. On every grid with dimensions 160 × 160 and 25600 cells,
with each static uninitialised or holding the program's cell size 5, for every
pixel `(px, py)`, in range or not: no divisor is zero and nothing is clamped;
`Grid::GetCellFromCoord` raises `std::out_of_range` exactly when the flat
index `(px / 5 + (py / 5) * 160) mod 2 ^ 64` is at least 25600, which is the
case whenever `py ≥ 800` and the index does not wrap. -/
theorem screen_lookup_raises (g : Grid) (statics : CellSizeStatics) (px py : Nat)
    (hsize : g._size = (160, 160)) (hlen : g._cells.length = 160 * 160)
    (hfits : statics.Fits 5) :
    (g.GetCellFromCoord statics (px, py)).1 ≠ Except.error Raised.division_by_zero
      ∧ ((g.GetCellFromCoord statics (px, py)).1 = Except.error Raised.out_of_range
          ↔ 25600 ≤ sizeAdd (px / 5) (sizeMul (py / 5) 160))
      ∧ (800 ≤ py → px / 5 + (py / 5) * 160 < 18446744073709551616 →
          (g.GetCellFromCoord statics (px, py)).1 = Except.error Raised.out_of_range) := by
  have hinitx := staticInit_of_fits statics.cellSizeX 160 (by decide) hfits.1
  have hinity := staticInit_of_fits statics.cellSizeY 160 (by decide) hfits.2
  rw [show 800 / 160 = 5 by decide] at hinitx hinity
  have heq := Grid.GetCellFromCoord_eq g statics 160 5 5 px py hsize hinitx hinity
    (by decide) (by decide)
  have hiff : (g.GetCellFromCoord statics (px, py)).1 = Except.error Raised.out_of_range
      ↔ 25600 ≤ sizeAdd (px / 5) (sizeMul (py / 5) 160) := by
    rw [heq]
    cases hget : g._cells[sizeAdd (px / 5) (sizeMul (py / 5) 160)]? with
    | none =>
      have := List.getElem?_eq_none_iff.mp hget
      simp only [true_iff]
      omega
    | some c =>
      have := (List.getElem?_eq_some.mp hget).1
      simp only [reduceCtorEq, false_iff]
      omega
  refine ⟨?_, hiff, ?_⟩
  · rw [heq]
    cases g._cells[sizeAdd (px / 5) (sizeMul (py / 5) 160)]? <;> simp
  · intro hpy hwrap
    rw [hiff]
    have hmul : sizeMul (py / 5) 160 = py / 5 * 160 := by
      unfold sizeMul
      exact Nat.mod_eq_of_lt (by omega)
    rw [hmul, sizeAdd_eq _ _ hwrap]
    omega

/-- C12, amended, on the program's grid at the pixel `(3, 800)`, in the first
lookup of the process. -/
theorem screen_lookup_raises_witness :
    (main_grid.GetCellFromCoord {} (3, 800)).1 = Except.error Raised.out_of_range :=
  (screen_lookup_raises main_grid {} 3 800 rfl main_grid_length
    ⟨Or.inl rfl, Or.inl rfl⟩).2.2 (by decide) (by decide)

/-! ## Reach of the seeding routines -/

theorem Grid.bornAt_hasAdjacency (adj : Nat → List Nat) (st : Grid × RNG) (p : Nat)
    (h : Grid.HasAdjacency adj st) : Grid.HasAdjacency adj (Grid.bornAt st p) := by
  intro q
  rw [Grid.bornAt_deref]
  split
  · exact h q
  · exact h q

theorem Grid.foldl_bornAt_hasAdjacency (adj : Nat → List Nat) (l : List Nat) (st : Grid × RNG)
    (h : Grid.HasAdjacency adj st) :
    Grid.HasAdjacency adj (l.foldl (fun s p => Grid.bornAt s p) st) :=
  List.foldl_preserves (Grid.HasAdjacency adj) _
    (fun b a hb => Grid.bornAt_hasAdjacency adj b a hb) l st h

/-- `Type1Cell_initialize` is the run of `Born` calls through `Grid.pointers`
at depth index 0. -/
theorem Type1Cell_eq_foldl (adj : Nat → List Nat) (st : Grid × RNG) (cell : Nat)
    (h : Grid.HasAdjacency adj st) :
    Type1Cell_initialize st cell
      = (Grid.pointers adj 0 cell).foldl (fun s p => Grid.bornAt s p) st := by
  unfold Type1Cell_initialize Grid.pointers
  rw [Grid.bornAt_hasAdjacency adj st cell h cell, List.foldl_cons]

/-- A loop `Born(); inner(*cell);` over an adjacency list is a run of `Born`
calls when `inner` is one. -/
theorem Grid.foldl_seed_eq (adj : Nat → List Nat) (inner : Grid × RNG → Nat → Grid × RNG)
    (ptr : Nat → List Nat)
    (hinner : ∀ s p, Grid.HasAdjacency adj s →
      inner s p = (ptr p).foldl (fun s p => Grid.bornAt s p) s)
    (l : List Nat) (st : Grid × RNG) (h : Grid.HasAdjacency adj st) :
    l.foldl (fun s p => inner (Grid.bornAt s p) p) st
      = (l.flatMap fun p => p :: ptr p).foldl (fun s p => Grid.bornAt s p) st := by
  induction l generalizing st with
  | nil => rfl
  | cons p l ih =>
    rw [List.foldl_cons, List.flatMap_cons, List.foldl_append, List.foldl_cons,
      hinner _ p (Grid.bornAt_hasAdjacency adj st p h)]
    exact ih _ (Grid.foldl_bornAt_hasAdjacency adj _ _ (Grid.bornAt_hasAdjacency adj st p h))

/-- `Type2Cell_initialize` is the run of `Born` calls through `Grid.pointers`
at depth index 1. -/
theorem Type2Cell_eq_foldl (adj : Nat → List Nat) (st : Grid × RNG) (cell : Nat)
    (h : Grid.HasAdjacency adj st) :
    Type2Cell_initialize st cell
      = (Grid.pointers adj 1 cell).foldl (fun s p => Grid.bornAt s p) st := by
  unfold Type2Cell_initialize
  rw [Grid.bornAt_hasAdjacency adj st cell h cell,
    Grid.foldl_seed_eq adj (fun s p => Type1Cell_initialize s p) (Grid.pointers adj 0)
      (fun s p hs => Type1Cell_eq_foldl adj s p hs) _ _ (Grid.bornAt_hasAdjacency adj st cell h)]
  rfl

/-- `Type3Cell_initialize` is the run of `Born` calls through `Grid.pointers`
at depth index 2. -/
theorem Type3Cell_eq_foldl (adj : Nat → List Nat) (st : Grid × RNG) (cell : Nat)
    (h : Grid.HasAdjacency adj st) :
    Type3Cell_initialize st cell
      = (Grid.pointers adj 2 cell).foldl (fun s p => Grid.bornAt s p) st := by
  unfold Type3Cell_initialize
  rw [Grid.bornAt_hasAdjacency adj st cell h cell,
    Grid.foldl_seed_eq adj (fun s p => Type2Cell_initialize s p) (Grid.pointers adj 1)
      (fun s p hs => Type2Cell_eq_foldl adj s p hs) _ _ (Grid.bornAt_hasAdjacency adj st cell h)]
  rfl

theorem Grid.foldl_bornAt_length (l : List Nat) (st : Grid × RNG) :
    (l.foldl (fun s p => Grid.bornAt s p) st).1._cells.length = st.1._cells.length :=
  List.foldl_preserves (fun s : Grid × RNG => s.1._cells.length = st.1._cells.length) _
    (fun b a hb => (Grid.bornAt_length b a).trans hb) l st rfl

theorem Grid.foldl_bornAt_distribution (l : List Nat) (st : Grid × RNG) :
    (l.foldl (fun s p => Grid.bornAt s p) st).2.distribution = st.2.distribution :=
  List.foldl_preserves (fun s : Grid × RNG => s.2.distribution = st.2.distribution) _
    (fun b a hb => (Grid.bornAt_distribution b a).trans hb) l st rfl

/-- A run of `Born` calls through the pointers of `l`, for a generator with
draws in `[2, 10]`: a cell pointed to ends with a life in `[2, 10]` and keeps
its staged transition, any other cell is untouched. -/
theorem Grid.foldl_bornAt_inRange (l : List Nat) (st : Grid × RNG) (hr : st.2.InRange) (q : Nat) :
    (q ∈ l → q < st.1._cells.length →
        2 ≤ lifeOf (l.foldl (fun s p => Grid.bornAt s p) st).1._cells q
          ∧ lifeOf (l.foldl (fun s p => Grid.bornAt s p) st).1._cells q ≤ 10)
      ∧ (q ∉ l → deref (l.foldl (fun s p => Grid.bornAt s p) st).1._cells q = deref st.1._cells q)
      ∧ (deref (l.foldl (fun s p => Grid.bornAt s p) st).1._cells q)._nextStatus
          = (deref st.1._cells q)._nextStatus := by
  induction l generalizing st with
  | nil => exact ⟨fun h => absurd h (List.not_mem_nil q), fun _ => rfl, rfl⟩
  | cons p l ih =>
    have hr1 : (Grid.bornAt st p).2.InRange := by
      intro n; rw [Grid.bornAt_distribution]; exact hr n
    obtain ⟨h1, h2, h3⟩ := ih (Grid.bornAt st p) hr1
    have hb := Grid.bornAt_deref st p q
    rw [List.foldl_cons]
    refine ⟨?_, ?_, ?_⟩
    · intro hq hlen
      by_cases hql : q ∈ l
      · exact h1 hql (by rw [Grid.bornAt_length]; exact hlen)
      · have hqp : q = p := by
          rcases List.mem_cons.mp hq with h | h
          · exact h
          · exact absurd h hql
        unfold lifeOf
        rw [h2 hql, hb, if_pos ⟨hqp, by rw [← hqp]; exact hlen⟩]
        exact toSizeT_of_inRange _ (hr _)
    · intro hq
      have hql : q ∉ l := fun h => hq (List.mem_cons_of_mem _ h)
      have hqp : q ≠ p := fun h => hq (by rw [h]; exact List.mem_cons_self _ _)
      rw [h2 hql, hb, if_neg (fun h => hqp h.1)]
    · rw [h3, hb]
      split <;> rfl

/-- Distance at most `k` spelled out without `max`. -/
theorem Grid.distance_le_iff (x y x2 y2 k : Nat) :
    Grid.distance x y x2 y2 ≤ k ↔ x ≤ x2 + k ∧ x2 ≤ x + k ∧ y ≤ y2 + k ∧ y2 ≤ y + k := by
  unfold Grid.distance absDiff
  rw [Nat.max_def]
  split <;> split <;> split <;> constructor <;> intro h <;> omega

/-- Two cells with the same index have the same coordinates. -/
theorem Grid.index_inj (size x y x2 y2 : Nat) (hx : x < size) (hx2 : x2 < size) :
    x2 + y2 * size = x + y * size ↔ x2 = x ∧ y2 = y := by
  have hrows := Grid.rows_cases size y y2
  constructor
  · intro h
    rcases hrows with ⟨h1, h2⟩ | ⟨h1, h2⟩ | ⟨h1, h2⟩ | ⟨h1, h2⟩ | ⟨h1, h2⟩ <;> omega
  · rintro ⟨h1, h2⟩
    rw [h1, h2]

/-- Every entry of `Grid.adjacencyOf` is the index of a cell. -/
theorem Grid.adjacencyOf_lt (size x y p : Nat) (hx : x < size) (hy : y < size)
    (h : p ∈ Grid.adjacencyOf size x y) : p < size * size := by
  have hm1 : y * size + size ≤ size * size := by
    have : (y + 1) * size ≤ size * size := Nat.mul_le_mul_right size (by omega)
    rw [Nat.add_mul, Nat.one_mul] at this
    exact this
  have hm3 : y ≠ size - 1 → y * size + size + size ≤ size * size := by
    intro h
    have : (y + 2) * size ≤ size * size := Nat.mul_le_mul_right size (by omega)
    rw [Nat.add_mul] at this
    omega
  rw [Grid.mem_adjacencyOf_ite] at h
  generalize y * size = A at *
  revert h
  simp only [or_imp, and_imp]
  and_intros <;> intros <;> omega

/-- The coordinates of the cell stored at index `p`. -/
theorem Grid.index_coords (size p : Nat) (hp : p < size * size) :
    p % size < size ∧ p / size < size ∧ p % size + p / size * size = p := by
  have hs : 0 < size := by
    rcases Nat.eq_zero_or_pos size with h | h
    · rw [h] at hp; omega
    · exact h
  refine ⟨Nat.mod_lt _ hs, Nat.div_lt_of_lt_mul hp, ?_⟩
  rw [Nat.mul_comm]
  exact Nat.mod_add_div p size

theorem Grid.adjacencyAt_eq (size x y : Nat) (hx : x < size) (hy : y < size) :
    Grid.adjacencyAt size (x + y * size) = Grid.adjacencyOf size x y := by
  have hrow : y * size + size ≤ size * size := by
    have : (y + 1) * size ≤ size * size := Nat.mul_le_mul_right size (by omega)
    rw [Nat.add_mul, Nat.one_mul] at this
    exact this
  have hmod : (x + y * size) % size = x := by
    rw [Nat.add_mul_mod_self_right, Nat.mod_eq_of_lt hx]
  have hdiv : (x + y * size) / size = y := by
    rw [Nat.add_mul_div_right _ _ (by omega), Nat.div_eq_of_lt hx, Nat.zero_add]
  unfold Grid.adjacencyAt
  rw [if_pos (by omega), hmod, hdiv]

/-- The cells that the seeding routine of depth `d + 1` calls `Born` on are
the cells at distance at most `d + 1` from the target. -/
theorem Grid.mem_pointers (size d x y x2 y2 : Nat)
    (hx : x < size) (hy : y < size) (hx2 : x2 < size) (hy2 : y2 < size) :
    x2 + y2 * size ∈ Grid.pointers (Grid.adjacencyAt size) d (x + y * size)
      ↔ Grid.distance x y x2 y2 ≤ d + 1 := by
  induction d generalizing x y with
  | zero =>
    unfold Grid.pointers
    rw [List.mem_cons, Grid.adjacencyAt_eq size x y hx hy,
      Grid.mem_adjacencyOf size x y x2 y2 hx hy hx2 hy2, Grid.index_inj size x y x2 y2 hx hx2,
      Grid.distance_eq_one_iff, Grid.distance_le_iff]
    omega
  | succ d ih =>
    unfold Grid.pointers
    rw [List.mem_cons, Grid.adjacencyAt_eq size x y hx hy, List.mem_flatMap,
      Grid.index_inj size x y x2 y2 hx hx2]
    constructor
    · rintro (⟨h1, h2⟩ | ⟨p, hp, hmem⟩)
      · rw [Grid.distance_le_iff]; omega
      · have hplt := Grid.adjacencyOf_lt size x y p hx hy hp
        obtain ⟨hpx, hpy, hpe⟩ := Grid.index_coords size p hplt
        rw [← hpe] at hp hmem
        have hd1 := (Grid.mem_adjacencyOf size x y _ _ hx hy hpx hpy).mp hp
        rw [Grid.distance_eq_one_iff] at hd1
        rw [List.mem_cons] at hmem
        rcases hmem with hmem | hmem
        · have := (Grid.index_inj size _ _ x2 y2 hpx hx2).mp hmem
          rw [Grid.distance_le_iff]; omega
        · have := (ih _ _ hpx hpy).mp hmem
          rw [Grid.distance_le_iff] at this ⊢
          omega
    · intro h
      rw [Grid.distance_le_iff] at h
      by_cases hsame : x2 = x ∧ y2 = y
      · exact Or.inl hsame
      · right
        have hmx : ∃ mx, mx < size ∧ mx ≤ x + 1 ∧ x ≤ mx + 1 ∧ mx ≤ x2 + (d + 1)
            ∧ x2 ≤ mx + (d + 1) ∧ (x2 ≠ x → mx ≠ x) := by
          by_cases h1 : x < x2
          · exact ⟨x + 1, by omega, by omega, by omega, by omega, by omega, by omega⟩
          · by_cases h2 : x2 < x
            · exact ⟨x - 1, by omega, by omega, by omega, by omega, by omega, by omega⟩
            · exact ⟨x, by omega, by omega, by omega, by omega, by omega, by omega⟩
        have hmy : ∃ my, my < size ∧ my ≤ y + 1 ∧ y ≤ my + 1 ∧ my ≤ y2 + (d + 1)
            ∧ y2 ≤ my + (d + 1) ∧ (y2 ≠ y → my ≠ y) := by
          by_cases h1 : y < y2
          · exact ⟨y + 1, by omega, by omega, by omega, by omega, by omega, by omega⟩
          · by_cases h2 : y2 < y
            · exact ⟨y - 1, by omega, by omega, by omega, by omega, by omega, by omega⟩
            · exact ⟨y, by omega, by omega, by omega, by omega, by omega, by omega⟩
        obtain ⟨mx, hmx1, hmx2, hmx3, hmx4, hmx5, hmx6⟩ := hmx
        obtain ⟨my, hmy1, hmy2, hmy3, hmy4, hmy5, hmy6⟩ := hmy
        refine ⟨mx + my * size, ?_, List.mem_cons_of_mem _ ?_⟩
        · rw [Grid.mem_adjacencyOf size x y mx my hx hy hmx1 hmy1, Grid.distance_eq_one_iff]
          omega
        · rw [ih mx my hmx1 hmy1, Grid.distance_le_iff]
          omega

/-- A state of the `size × size` grid has `size * size` cells and the
adjacency lists `Grid.adjacencyAt size`. -/
theorem Grid.IsStateOf.hasAdjacency (size : Nat) (g : Grid) (r : RNG)
    (hn : size * size < 2147483648) (hg : g.IsStateOf size) :
    g._cells.length = size * size ∧ Grid.HasAdjacency (Grid.adjacencyAt size) (g, r) := by
  unfold Grid.IsStateOf at hg
  rw [Grid.ctor_eq size hn] at hg
  simp only [Option.map_some', Option.some.injEq, Prod.mk.injEq] at hg
  have hmap := hg.2
  have hlen : g._cells.length = size * size := by
    have := congrArg List.length hmap
    simp only [List.length_map, Grid.linkedUpTo_length] at this
    exact this.symm
  refine ⟨hlen, ?_⟩
  intro q
  unfold Grid.adjacencyAt
  by_cases hq : q < size * size
  · rw [if_pos hq]
    have h1 := congrArg (fun l => l[q]?) hmap
    simp only [List.getElem?_map, Grid.linkedUpTo_getElem? size _ q hq, if_pos hq,
      getElem?_eq_deref g._cells q (by omega), Option.map_some', Option.some.injEq] at h1
    exact h1.symm
  · rw [if_neg hq]
    have hnone : g._cells[q]? = none := List.getElem?_eq_none (by omega)
    show (g._cells.getD q {})._adjacentCells = []
    rw [List.getD_eq_getElem?_getD, hnone]
    rfl

theorem Grid.index_lt (size x y : Nat) (hx : x < size) (hy : y < size) :
    x + y * size < size * size := by
  have : (y + 1) * size ≤ size * size := Nat.mul_le_mul_right size (by omega)
  rw [Nat.add_mul, Nat.one_mul] at this
  omega

/-- The run of `Born` calls of the seeding routine of depth `d + 1` on a state
of the `size × size` grid, for a generator with draws in `[2, 10]`: the result
is again such a state, every cell at distance at most `d + 1` from the target
has a life in `[2, 10]`, and every cell farther away is untouched. -/
theorem Grid.run_reach (size d : Nat) (st : Grid × RNG) (x y : Nat)
    (hadj : Grid.HasAdjacency (Grid.adjacencyAt size) st)
    (hlen : st.1._cells.length = size * size) (hr : st.2.InRange)
    (hx : x < size) (hy : y < size) :
    (Grid.HasAdjacency (Grid.adjacencyAt size)
          ((Grid.pointers (Grid.adjacencyAt size) d (x + y * size)).foldl
            (fun s p => Grid.bornAt s p) st)
        ∧ ((Grid.pointers (Grid.adjacencyAt size) d (x + y * size)).foldl
            (fun s p => Grid.bornAt s p) st).1._cells.length = size * size
        ∧ ((Grid.pointers (Grid.adjacencyAt size) d (x + y * size)).foldl
            (fun s p => Grid.bornAt s p) st).2.InRange)
      ∧ ∀ x2 y2, x2 < size → y2 < size →
          (Grid.distance x y x2 y2 ≤ d + 1 →
            2 ≤ lifeOf ((Grid.pointers (Grid.adjacencyAt size) d (x + y * size)).foldl
                (fun s p => Grid.bornAt s p) st).1._cells (x2 + y2 * size)
              ∧ lifeOf ((Grid.pointers (Grid.adjacencyAt size) d (x + y * size)).foldl
                (fun s p => Grid.bornAt s p) st).1._cells (x2 + y2 * size) ≤ 10)
          ∧ (d + 1 < Grid.distance x y x2 y2 →
            deref ((Grid.pointers (Grid.adjacencyAt size) d (x + y * size)).foldl
                (fun s p => Grid.bornAt s p) st).1._cells (x2 + y2 * size)
              = deref st.1._cells (x2 + y2 * size)) := by
  refine ⟨⟨Grid.foldl_bornAt_hasAdjacency _ _ _ hadj, ?_, ?_⟩, ?_⟩
  · rw [Grid.foldl_bornAt_length]; exact hlen
  · intro n; rw [Grid.foldl_bornAt_distribution]; exact hr n
  · intro x2 y2 hx2 hy2
    have hmem := Grid.mem_pointers size d x y x2 y2 hx hy hx2 hy2
    obtain ⟨h1, h2, _⟩ := Grid.foldl_bornAt_inRange
      (Grid.pointers (Grid.adjacencyAt size) d (x + y * size)) st hr (x2 + y2 * size)
    refine ⟨fun h => h1 (hmem.mpr h) (by rw [hlen]; exact Grid.index_lt size x2 y2 hx2 hy2), ?_⟩
    intro h
    exact h2 (fun hm => by have := hmem.mp hm; omega)

/-- C15. For every state of the `size × size` grid (with `size * size` within
the range of the `int` counter `cellId`), every target cell `(x, y)` and every
generator with draws in `[2, 10]`: after `Type2Cell_initialize` (`k = 2`),
respectively `Type3Cell_initialize` (`k = 3`), every cell `(x2, y2)` of the
grid with `max(|x - x2|, |y - y2|) ≤ k` is alive with remaining life in
`[2, 10]`, and is so again after the same seed is applied a second time; every
cell at distance greater than `k` keeps its remaining life and its staged
transition. -/
theorem seed_reach (size : Nat) (g : Grid) (r : RNG) (x y : Nat)
    (hn : size * size < 2147483648) (hg : g.IsStateOf size) (hr : r.InRange)
    (hx : x < size) (hy : y < size) :
    ∀ x2 y2, x2 < size → y2 < size →
      (Grid.distance x y x2 y2 ≤ 2 →
        (2 ≤ lifeOf ( Type2Cell_initialize (g, r) (x + y * size)).1._cells (x2 + y2 * size)
          ∧ lifeOf ( Type2Cell_initialize (g, r) (x + y * size)).1._cells (x2 + y2 * size) ≤ 10)
        ∧ 2 ≤ lifeOf ( Type2Cell_initialize ( Type2Cell_initialize (g, r) (x + y * size))
              (x + y * size)).1._cells (x2 + y2 * size)
        ∧ lifeOf ( Type2Cell_initialize ( Type2Cell_initialize (g, r) (x + y * size))
              (x + y * size)).1._cells (x2 + y2 * size) ≤ 10)
      ∧ (2 < Grid.distance x y x2 y2 →
        lifeOf ( Type2Cell_initialize (g, r) (x + y * size)).1._cells (x2 + y2 * size)
            = lifeOf g._cells (x2 + y2 * size)
          ∧ (deref ( Type2Cell_initialize (g, r) (x + y * size)).1._cells
                (x2 + y2 * size))._nextStatus
              = (deref g._cells (x2 + y2 * size))._nextStatus)
      ∧ (Grid.distance x y x2 y2 ≤ 3 →
        (2 ≤ lifeOf ( Type3Cell_initialize (g, r) (x + y * size)).1._cells (x2 + y2 * size)
          ∧ lifeOf ( Type3Cell_initialize (g, r) (x + y * size)).1._cells (x2 + y2 * size) ≤ 10)
        ∧ 2 ≤ lifeOf ( Type3Cell_initialize ( Type3Cell_initialize (g, r) (x + y * size))
              (x + y * size)).1._cells (x2 + y2 * size)
        ∧ lifeOf ( Type3Cell_initialize ( Type3Cell_initialize (g, r) (x + y * size))
              (x + y * size)).1._cells (x2 + y2 * size) ≤ 10)
      ∧ (3 < Grid.distance x y x2 y2 →
        lifeOf ( Type3Cell_initialize (g, r) (x + y * size)).1._cells (x2 + y2 * size)
            = lifeOf g._cells (x2 + y2 * size)
          ∧ (deref ( Type3Cell_initialize (g, r) (x + y * size)).1._cells
                (x2 + y2 * size))._nextStatus
              = (deref g._cells (x2 + y2 * size))._nextStatus) := by
  obtain ⟨hlen, hadj⟩ := Grid.IsStateOf.hasAdjacency size g r hn hg
  intro x2 y2 hx2 hy2
  have e2 := Type2Cell_eq_foldl (Grid.adjacencyAt size) (g, r) (x + y * size) hadj
  have e3 := Type3Cell_eq_foldl (Grid.adjacencyAt size) (g, r) (x + y * size) hadj
  obtain ⟨⟨a2, l2, r2⟩, k2⟩ := Grid.run_reach size 1 (g, r) x y hadj hlen hr hx hy
  obtain ⟨⟨a3, l3, r3⟩, k3⟩ := Grid.run_reach size 2 (g, r) x y hadj hlen hr hx hy
  rw [← e2] at a2 l2 r2 k2
  rw [← e3] at a3 l3 r3 k3
  have e22 := Type2Cell_eq_foldl (Grid.adjacencyAt size) _ (x + y * size) a2
  have e33 := Type3Cell_eq_foldl (Grid.adjacencyAt size) _ (x + y * size) a3
  obtain ⟨_, k22⟩ := Grid.run_reach size 1 _ x y a2 l2 r2 hx hy
  obtain ⟨_, k33⟩ := Grid.run_reach size 2 _ x y a3 l3 r3 hx hy
  rw [← e22] at k22
  rw [← e33] at k33
  refine ⟨?_, ?_, ?_, ?_⟩
  · intro h
    exact ⟨(k2 x2 y2 hx2 hy2).1 h, (k22 x2 y2 hx2 hy2).1 h⟩
  · intro h
    have := (k2 x2 y2 hx2 hy2).2 h
    unfold lifeOf
    rw [this]
    exact ⟨rfl, rfl⟩
  · intro h
    exact ⟨(k3 x2 y2 hx2 hy2).1 h, (k33 x2 y2 hx2 hy2).1 h⟩
  · intro h
    have := (k3 x2 y2 hx2 hy2).2 h
    unfold lifeOf
    rw [this]
    exact ⟨rfl, rfl⟩

set_option maxRecDepth 1000000 in
/-- C15 on the all-dead 4×4 grid seeded at the corner `(0, 0)`: the cell
`(2, 2)` is reached by `Type2Cell_initialize`, the cell `(3, 1)` is not. -/
theorem seed_reach_witness :
    (2 ≤ lifeOf ( Type2Cell_initialize
          (Grid.ofLives 4 [0, 0, 0, 0, 0, 0, 0, 0, 0, 0, 0, 0, 0, 0, 0, 0], RNG.const 5)
          (0 + 0 * 4)).1._cells (2 + 2 * 4)
      ∧ lifeOf ( Type2Cell_initialize
          (Grid.ofLives 4 [0, 0, 0, 0, 0, 0, 0, 0, 0, 0, 0, 0, 0, 0, 0, 0], RNG.const 5)
          (0 + 0 * 4)).1._cells (2 + 2 * 4) ≤ 10)
      ∧ lifeOf ( Type2Cell_initialize
          (Grid.ofLives 4 [0, 0, 0, 0, 0, 0, 0, 0, 0, 0, 0, 0, 0, 0, 0, 0], RNG.const 5)
          (0 + 0 * 4)).1._cells (3 + 1 * 4)
        = lifeOf (Grid.ofLives 4 [0, 0, 0, 0, 0, 0, 0, 0, 0, 0, 0, 0, 0, 0, 0, 0])._cells
            (3 + 1 * 4) :=
  ⟨((seed_reach 4 (Grid.ofLives 4 [0, 0, 0, 0, 0, 0, 0, 0, 0, 0, 0, 0, 0, 0, 0, 0]) (RNG.const 5)
      0 0 (by decide) (by decide) (RNG.const_inRange 5 (by decide)) (by decide) (by decide)
      2 2 (by decide) (by decide)).1 (by decide)).1,
    ((seed_reach 4 (Grid.ofLives 4 [0, 0, 0, 0, 0, 0, 0, 0, 0, 0, 0, 0, 0, 0, 0, 0]) (RNG.const 5)
      0 0 (by decide) (by decide) (RNG.const_inRange 5 (by decide)) (by decide) (by decide)
      3 1 (by decide) (by decide)).2.1 (by decide)).1⟩
